import Mathlib

/-!
Shallow embedding of the bt-brunnels geometric matching pipeline.

Sources embedded here:
 - src/js/turf-csp.js   (geometry primitives: pointOnSegment, nearestPointOnLine,
   lengthToRadians / radiansToLength and the haversine distance)
 - src/js/content.js    (GeometryUtils, Brunnel, BrunnelAnalysis, locateBrunnels)

Modelling conventions.

The source computes with JavaScript floating point numbers; the embedding
works in an arbitrary linear ordered field (instantiated with the rationals
for executable witnesses and with the reals where actual trigonometry is
needed).  The only transcendental computation in the pipeline is the
haversine central angle computed by turf's distance function and the rhumb
bearing; every call of turf.distance is radiansToLength(angle, units) =
angle * factor(units) for the central angle of the two points.  The
pipeline layer is therefore parameterised by an oracle
angle : Pt -> Pt -> α standing for that central-angle computation, and by
an oracle rb : Pt -> Pt -> α for turf.rhumbBearing; the real haversine
angle (defined below over the reals, exactly as in the source) is one
admissible instantiation, used for the nearest-point counterexample.

turf.distance(p, q, {units:'kilometers'}) is modelled by distKm angle p q
and turf.distance(p, q, {units:'meters'}) by distM angle p q, with the two
factor constants 6371.0088 and 6371008.8 taken literally from the source
(these are the only units the pipeline passes; the full string-keyed unit
lookup, including its JavaScript prototype-chain behaviour, is modelled
separately for the unit-error analysis).

JavaScript mutation of Brunnel objects is modelled functionally: each
pipeline stage maps the brunnel list to an updated brunnel list, element
positions playing the role of object identity.
-/

section Geometry

variable {α : Type*} [LinearOrderedField α]

/-- A turf position: [longitude, latitude] pair, in degrees
(the order produced by CoordinateUtils.toTurfCoords). -/
structure Pt (α : Type*) where
  lon : α
  lat : α
deriving DecidableEq, Repr

/-- Result of turf.pointOnSegment: the clamped planar projection of pt onto
the segment from s to e in raw lon/lat coordinates, together with the clamped
parameter t.  Mirrors pointOnSegment in src/js/turf-csp.js. -/
def pointOnSegment (s e p : Pt α) : Pt α × α :=
  let dx := e.lon - s.lon
  let dy := e.lat - s.lat
  let lengthSq := dx * dx + dy * dy
  if lengthSq = 0 then (s, 0)
  else
    let t := max 0 (min 1 (((p.lon - s.lon) * dx + (p.lat - s.lat) * dy) / lengthSq))
    (⟨s.lon + t * dx, s.lat + t * dy⟩, t)

/-- The properties of the feature returned by turf.nearestPointOnLine:
the returned coordinates, the dist property and the location property. -/
structure NearestRes (α : Type*) where
  point : Pt α
  dist : α
  location : α
deriving DecidableEq, Repr

/-- Consecutive coordinate pairs of a polyline: the segments indexed by
i = 0 .. length - 2, as iterated by the loops of the source. -/
def consPairs (l : List (Pt α)) : List (Pt α × Pt α) :=
  l.zip l.tail

/-- Loop body of nearestPointOnLine, recursing over the segment list.
best is the running closest candidate (none models the initial
closestDistance = Infinity state, which every first comparison beats);
total is the running cumulative distance along the line.  The strict
comparison d < closestDistance means an earlier segment keeps the
candidate on an exact tie, as in the source. -/
def nearestGo (d : Pt α → Pt α → α) (p : Pt α) :
    List (Pt α × Pt α) → Option (NearestRes α) → α → Option (NearestRes α)
  | [], best, _ => best
  | (a, b) :: rest, best, total =>
    let segLen := d a b
    let r := pointOnSegment a b p
    let dd := d r.1 p
    let best' :=
      match best with
      | none => some ⟨r.1, dd, total + r.2 * segLen⟩
      | some bb => if dd < bb.dist then some ⟨r.1, dd, total + r.2 * segLen⟩ else some bb
    nearestGo d p rest best' (total + segLen)

/-- turf.nearestPointOnLine from src/js/turf-csp.js, parameterised by the
distance function d used for both the segment lengths and the
point-to-projection distances (the source uses turf.distance with the
caller's units; every pipeline call site uses kilometers).  Returns none
only when the polyline has fewer than two coordinates, a case the source
excludes because turf.lineString rejects such polylines. -/
def nearestPointOnLine (d : Pt α → Pt α → α) (coords : List (Pt α)) (p : Pt α) :
    Option (NearestRes α) :=
  nearestGo d p (consPairs coords) none 0

end Geometry

section ContentModel

variable {α : Type*} [LinearOrderedField α]

/-- Conversion factor of radiansToLength for units 'kilometers'
(6371.0088 in the source). -/
def kmFactor : ℚ := 63710088 / 10000

/-- Conversion factor of radiansToLength for units 'meters'
(EARTH_RADIUS = 6371008.8 in the source). -/
def mFactor : ℚ := 63710088 / 10

/-- turf.distance(p, q, {units:'kilometers'}): the haversine central angle
(abstracted as the oracle angle) scaled by the kilometers factor. -/
def distKm (angle : Pt α → Pt α → α) (p q : Pt α) : α :=
  angle p q * ((63710088 : α) / 10000)

/-- turf.distance(p, q, {units:'meters'}): the haversine central angle
scaled by EARTH_RADIUS. -/
def distM (angle : Pt α → Pt α → α) (p q : Pt α) : α :=
  angle p q * ((63710088 : α) / 10)

/-- A parsed Biketerra route point as produced by parseRouteData: latitude
and longitude in degrees and the externally supplied cumulative distance
in meters (the elevation field is never read by the core and is omitted). -/
structure RP (α : Type*) where
  lat : α
  lon : α
  distance : α
deriving DecidableEq, Repr

/-- CoordinateUtils.toTurfCoords on a single route point: [lon, lat]. -/
def RP.toPt (c : RP α) : Pt α := ⟨c.lon, c.lat⟩

/-- A raw OSM geometry node of a brunnel way: {lat, lon}. -/
structure LL (α : Type*) where
  lat : α
  lon : α
deriving DecidableEq, Repr

/-- CoordinateUtils.toTurfCoords on a geometry node. -/
def LL.toPt (c : LL α) : Pt α := ⟨c.lon, c.lat⟩

/-- Brunnel type tag. -/
inductive BrunnelType where
  | bridge
  | tunnel
deriving DecidableEq, Repr

/-- The exclusion reasons assigned by the pipeline stages. -/
inductive ExclusionReason where
  | outlier
  | misaligned
  | alternative
deriving DecidableEq, Repr

/-- A route span in kilometers, as stored in brunnel.routeSpan. -/
structure Span (α : Type*) where
  startDistance : α
  endDistance : α
deriving DecidableEq, Repr

/-- The Brunnel object of src/js/content.js.  turfPoints and turfLineString
are derived data recomputed on demand here instead of being cached fields;
routeSpan and exclusionReason are the two mutable fields, null modelled as
none.  The tags and nodes fields are never read by the pipeline and are
omitted. -/
structure Brunnel (α : Type*) where
  id : ℕ
  type : BrunnelType
  name : String
  geometry : List (LL α)
  routeSpan : Option (Span α) := none
  exclusionReason : Option ExclusionReason := none
deriving DecidableEq, Repr

/-- The Brunnel constructor: routeSpan and exclusionReason start null. -/
def mkBrunnel (id : ℕ) (type : BrunnelType) (name : String) (geometry : List (LL α)) :
    Brunnel α :=
  ⟨id, type, name, geometry, none, none⟩

/-- brunnel.turfPoints: the geometry nodes as turf positions. -/
def Brunnel.turfPoints (b : Brunnel α) : List (Pt α) :=
  b.geometry.map LL.toPt

/-- brunnel.isIncluded(): exclusionReason === null. -/
def Brunnel.isIncluded (b : Brunnel α) : Bool :=
  b.exclusionReason.isNone

/-- Placeholder route point for out-of-range list indexing.  Every use is
guarded so that in-range indices are the only ones reached under the
hypotheses of the theorems (JavaScript would throw or produce NaN there). -/
def junkRP : RP α := ⟨0, 0, 0⟩

/-- Placeholder span for reading brunnel.routeSpan where the source assumes
it is non-null (JavaScript would throw on the null dereference). -/
def junkSpan : Span α := ⟨0, 0⟩

/-- Placeholder brunnel for out-of-range list indexing. -/
def junkBrunnel : Brunnel α := ⟨0, .bridge, "", [], none, none⟩

/-- nearestPointOnLine of a route, totalised: the none case is unreachable
for routes with at least 2 coordinates (turf.lineString throws on shorter
inputs before any pipeline stage runs). -/
def nearestOnRoute (angle : Pt α → Pt α → α) (routeCoords : List (RP α)) (p : Pt α) :
    NearestRes α :=
  (nearestPointOnLine (distKm angle) (routeCoords.map RP.toPt) p).getD ⟨p, 0, 0⟩

/-- GeometryUtils.brunnelWithinDistance: true when every brunnel vertex is
within bufferMeters of the route line, the per-vertex distance being
turf.distance (kilometers) from the vertex to its nearestPointOnLine
projection.  The source's early return on the first distant vertex is
equivalent to List.all. -/
def brunnelWithinDistance (angle : Pt α → Pt α → α) (b : Brunnel α)
    (routeCoords : List (RP α)) (bufferMeters : α) : Bool :=
  let bufferKm := bufferMeters / 1000
  b.turfPoints.all fun p =>
    decide (distKm angle p (nearestOnRoute angle routeCoords p).point ≤ bufferKm)

/-- The bracketing-segment scan of turfLocationToBiketerraDistance: walks
consecutive route vertex pairs accumulating turf segment lengths until the
running sum reaches loc, returning (segmentIndex, turfCumulative) exactly
as left by the source's loop (on fall-through without break, segmentIndex
is the last pair index plus one and the accumulator holds the full sum). -/
def segScan (angle : Pt α → Pt α → α) (loc : α) :
    List (RP α) → ℕ → α → ℕ × α
  | p1 :: p2 :: rest, i, cum =>
    let sd := distKm angle p1.toPt p2.toPt
    if loc ≤ cum + sd then (i, cum)
    else segScan angle loc (p2 :: rest) (i + 1) (cum + sd)
  | _, i, cum => (i, cum)

/-- GeometryUtils.turfLocationToBiketerraDistance: converts a turf location
(kilometers along the route in the engine's own metric) into Biketerra's
reference-distance scale, interpolating the bracketing segment's reference
distances with the clamped fraction t; result in kilometers. -/
def turfLocationToBiketerraDistance (angle : Pt α → Pt α → α) (loc : α)
    (coords : List (RP α)) : α :=
  let scan := segScan angle loc coords 0 0
  let si := min scan.1 (coords.length - 2)
  let p1 := coords.getD si junkRP
  let p2 := coords.getD (si + 1) junkRP
  let segLen := distKm angle p1.toPt p2.toPt
  let t := if 0 < segLen then min 1 (max 0 ((loc - scan.2) / segLen)) else 0
  (p1.distance + t * (p2.distance - p1.distance)) / 1000

/-- GeometryUtils.calculateRouteSpan: projects the first and last brunnel
vertex onto the route, converts each projection's turf location to the
Biketerra distance scale and returns the (min, max) pair; none for an
empty geometry. -/
def calculateRouteSpan (angle : Pt α → Pt α → α) (b : Brunnel α)
    (routeCoords : List (RP α)) : Option (Span α) :=
  match b.geometry with
  | [] => none
  | _ :: _ =>
    let pts := b.turfPoints
    let startPoint := pts.headD ⟨0, 0⟩
    let endPoint := pts.getLastD ⟨0, 0⟩
    let startNearest := nearestOnRoute angle routeCoords startPoint
    let endNearest := nearestOnRoute angle routeCoords endPoint
    let sd := turfLocationToBiketerraDistance angle startNearest.location routeCoords
    let ed := turfLocationToBiketerraDistance angle endNearest.location routeCoords
    some ⟨min sd ed, max sd ed⟩

/-- The index-collecting scan of GeometryUtils.getRouteSegment: one pass
over the cumulative distances; n is routeCoords.length (used to clamp the
end index); returns the startIndex and endIndex accumulators, none
standing for -1 / not set.  Breaks at the first cumulative distance
reaching endDistMeters. -/
def grsGo (n : ℕ) (sM eM : α) :
    List α → ℕ → Option ℕ → Option ℕ × Option ℕ
  | [], _, sIdx => (sIdx, none)
  | c :: rest, i, sIdx =>
    let sIdx' := if sIdx.isNone ∧ sM ≤ c then some (i - 1) else sIdx
    if eM ≤ c then (sIdx', some (min (n - 1) (i + 1)))
    else grsGo n sM eM rest (i + 1) sIdx'

/-- GeometryUtils.getRouteSegment: the route window for a span, in
kilometers, sliced out of routeCoords.  Math.max(0, i-1) is natural
subtraction; slice(a, b+1) is drop a, take (b+1-a). -/
def getRouteSegment (routeCoords : List (RP α)) (cumulativeDistances : List α)
    (startDist endDist : α) : List (RP α) :=
  if endDist ≤ startDist ∨ startDist < 0 then []
  else
    let sM := startDist * 1000
    let eM := endDist * 1000
    let scan := grsGo routeCoords.length sM eM cumulativeDistances 0 none
    let eIdx := scan.2.getD (routeCoords.length - 1)
    match scan.1 with
    | none => []
    | some a => (routeCoords.drop a).take (eIdx + 1 - a)

/-- GeometryUtils.getBearingDifference: undirected angular difference of
two bearings, folded so that reversed directions count as aligned. -/
def getBearingDifference (bearing1 bearing2 : α) : α :=
  let d1 := |bearing1 - bearing2|
  let d2 := if 180 < d1 then 360 - d1 else d1
  if 90 < d2 then |180 - d2| else d2

/-- GeometryUtils.isBrunnelAligned, with rb the turf.rhumbBearing oracle:
true when some brunnel segment's bearing is within toleranceDegrees of
some route window segment's bearing, with the fail-open degenerate cases
of the source. -/
def isBrunnelAligned (rb : Pt α → Pt α → α) (b : Brunnel α)
    (routeCoords : List (RP α)) (cumulativeDistances : List α)
    (routeSpan : Option (Span α)) (toleranceDegrees : α) : Bool :=
  if b.geometry.length < 2 ∨ routeCoords.length < 2 ∨ routeSpan.isNone then true
  else
    let sp := routeSpan.getD junkSpan
    let routeSegment :=
      getRouteSegment routeCoords cumulativeDistances sp.startDistance sp.endDistance
    if routeSegment.length < 2 then true
    else
      (consPairs b.turfPoints).any fun bp =>
        let brunnelBearing := rb bp.1 bp.2
        (consPairs (routeSegment.map RP.toPt)).any fun rp =>
          decide (getBearingDifference brunnelBearing (rb rp.1 rp.2) ≤ toleranceDegrees)

/-- brunnel.isAligned: null routeSpan short-circuits to aligned. -/
def Brunnel.isAligned (rb : Pt α → Pt α → α) (b : Brunnel α)
    (routeCoords : List (RP α)) (cumulativeDistances : List α)
    (toleranceDegrees : α) : Bool :=
  if b.routeSpan.isNone then true
  else isBrunnelAligned rb b routeCoords cumulativeDistances b.routeSpan toleranceDegrees

end ContentModel

section Analysis

variable {α : Type*} [LinearOrderedField α]

/-- The mutation effect of BrunnelAnalysis.filterContained on the brunnels
array: every brunnel failing the distance check gets exclusionReason
'outlier'; the others are untouched.  (The JavaScript function mutates the
array elements inside an Array.filter callback; locateBrunnels keeps using
the full mutated array, not the filter's return value.) -/
def markContained (angle : Pt α → Pt α → α) (bs : List (Brunnel α))
    (routeCoords : List (RP α)) (bufferMeters : α) : List (Brunnel α) :=
  bs.map fun b =>
    if brunnelWithinDistance angle b routeCoords bufferMeters then b
    else { b with exclusionReason := some .outlier }

/-- The return value of BrunnelAnalysis.filterContained: the sub-list of
brunnels passing the distance check (these are exactly the ones left
unmarked). -/
def keptContained (angle : Pt α → Pt α → α) (bs : List (Brunnel α))
    (routeCoords : List (RP α)) (bufferMeters : α) : List (Brunnel α) :=
  bs.filter fun b => brunnelWithinDistance angle b routeCoords bufferMeters

/-- BrunnelAnalysis.calculateRouteSpans: sets every brunnel's routeSpan. -/
def calculateRouteSpans (angle : Pt α → Pt α → α) (bs : List (Brunnel α))
    (routeCoords : List (RP α)) : List (Brunnel α) :=
  bs.map fun b => { b with routeSpan := calculateRouteSpan angle b routeCoords }

/-- BrunnelAnalysis.filterAligned: marks every still-included, misaligned
brunnel with exclusionReason 'misaligned'. -/
def filterAligned (rb : Pt α → Pt α → α) (bs : List (Brunnel α))
    (routeCoords : List (RP α)) (cumulativeDistances : List α)
    (toleranceDegrees : α) : List (Brunnel α) :=
  bs.map fun b =>
    if b.isIncluded then
      if b.isAligned rb routeCoords cumulativeDistances toleranceDegrees then b
      else { b with exclusionReason := some .misaligned }
    else b

/-- BrunnelAnalysis.routeSpansOverlap: open-interval overlap test. -/
def routeSpansOverlap (span1 span2 : Span α) : Bool :=
  !(decide (span1.endDistance ≤ span2.startDistance) ||
    decide (span2.endDistance ≤ span1.startDistance))

/-- Inner loop of the overlap grouping scan of handleOverlaps: the new
index i joins the first existing group any of whose members overlaps it
(appended at the end of that group), else opens a new group at the end of
the group list. -/
def insertIntoGroups (ov : ℕ → ℕ → Bool) : List (List ℕ) → ℕ → List (List ℕ)
  | [], i => [[i]]
  | g :: gs, i =>
    if g.any fun j => ov i j then (g ++ [i]) :: gs
    else g :: insertIntoGroups ov gs i

/-- The span of a brunnel whose routeSpan the source dereferences without a
null check (a null span there would be a JavaScript TypeError; all uses are
guarded by routeSpan presence). -/
def spanStart (b : Brunnel α) : α := (b.routeSpan.getD junkSpan).startDistance

/-- End of the span, with the same null convention as spanStart. -/
def spanEnd (b : Brunnel α) : α := (b.routeSpan.getD junkSpan).endDistance

/-- The positions of the included, spanned brunnels scanned by
handleOverlaps, in order (positions model JavaScript object identity). -/
def overlapIdx (bs : List (Brunnel α)) : List ℕ :=
  (List.range bs.length).filter fun i =>
    (bs.getD i junkBrunnel).isIncluded && (bs.getD i junkBrunnel).routeSpan.isSome

/-- The span-overlap test of the grouping scan, by position; the first
argument is the newly scanned brunnel, the second an existing group
member, matching routeSpansOverlap(brunnel.routeSpan, other.routeSpan). -/
def overlapTest (bs : List (Brunnel α)) (i j : ℕ) : Bool :=
  routeSpansOverlap ((bs.getD i junkBrunnel).routeSpan.getD junkSpan)
    ((bs.getD j junkBrunnel).routeSpan.getD junkSpan)

/-- The overlap groups built by handleOverlaps over the included, spanned
brunnels. -/
def overlapGroups (bs : List (Brunnel α)) : List (List ℕ) :=
  (overlapIdx bs).foldl (insertIntoGroups (overlapTest bs)) []

/-- BrunnelAnalysis._calculateAverageDistanceToRoute: mean over the brunnel
vertices of the turf.distance (meters) from the vertex to its nearest route
projection.  Division by the vertex count follows the field convention
(JavaScript yields NaN for an empty geometry; theorems only apply this to
spanned brunnels, whose geometry is nonempty). -/
def calculateAverageDistanceToRoute (angle : Pt α → Pt α → α) (b : Brunnel α)
    (routeCoords : List (RP α)) : α :=
  let total := (b.turfPoints.map fun p =>
    distM angle p (nearestOnRoute angle routeCoords p).point).sum
  total / (b.geometry.length : α)

/-- Positional marking pass: brunnels at the listed positions get
exclusionReason 'alternative'. -/
def markAlternatives (marked : List ℕ) : ℕ → List (Brunnel α) → List (Brunnel α)
  | _, [] => []
  | i, b :: rest =>
    (if i ∈ marked then { b with exclusionReason := some .alternative } else b) ::
      markAlternatives marked (i + 1) rest

/-- The average distance of the brunnel at a position, as compared by the
overlap resolution sort. -/
def overlapAvg (angle : Pt α → Pt α → α) (bs : List (Brunnel α))
    (routeCoords : List (RP α)) (i : ℕ) : α :=
  calculateAverageDistanceToRoute angle (bs.getD i junkBrunnel) routeCoords

/-- The positions marked 'alternative' by handleOverlaps: in every overlap
group of size over 1, all members except the head of the group sorted by
average distance to the route (JavaScript's sort is stable; Lean's
mergeSort is the matching stable sort). -/
def overlapMarked (angle : Pt α → Pt α → α) (bs : List (Brunnel α))
    (routeCoords : List (RP α)) : List ℕ :=
  ((overlapGroups bs).map fun g =>
    if 1 < g.length then
      (g.mergeSort fun i j =>
        decide (overlapAvg angle bs routeCoords i ≤ overlapAvg angle bs routeCoords j)).tail
    else []).flatten

/-- BrunnelAnalysis.handleOverlaps as a function on the brunnel list. -/
def handleOverlaps (angle : Pt α → Pt α → α) (bs : List (Brunnel α))
    (routeCoords : List (RP α)) : List (Brunnel α) :=
  markAlternatives (overlapMarked angle bs routeCoords) 0 bs

/-- De-duplication with JavaScript Set insertion-order semantics: the first
occurrence of each name survives, in order. -/
def jsDedup : List String → List String → List String
  | acc, [] => acc.reverse
  | acc, x :: xs => if x ∈ acc then jsDedup acc xs else jsDedup (x :: acc) xs

/-- BrunnelAnalysis._createMergedBrunnel: a singleton group is returned
as-is; a larger group's first member becomes the representative, its span
widened to (min start, max end) over the group and its name the
'; '-join of the de-duplicated member names.  The empty case is
unreachable (groups are built nonempty). -/
def createMergedBrunnel : List (Brunnel α) → Brunnel α
  | [] => junkBrunnel
  | [b] => b
  | b :: rest =>
    let g := b :: rest
    let startDistance :=
      match g.map spanStart with
      | [] => 0
      | x :: xs => xs.foldl min x
    let endDistance :=
      match g.map spanEnd with
      | [] => 0
      | x :: xs => xs.foldl max x
    let uniqueNames := jsDedup [] (g.map Brunnel.name)
    let mergedName :=
      if uniqueNames.length = 1 then uniqueNames.headD ""
      else String.intercalate "; " uniqueNames
    { b with routeSpan := some ⟨startDistance, endDistance⟩, name := mergedName }

/-- The grouping scan of _mergeByType over the sorted list: the current
group is carried as its first element plus the reversed rest; a candidate
within 0.001 km of the previous candidate's span end joins the group,
otherwise the group is closed and a new one opened. -/
def mergeScanGroups (first : Brunnel α) (revTail : List (Brunnel α)) :
    List (Brunnel α) → List (List (Brunnel α))
  | [] => [first :: revTail.reverse]
  | curr :: rest =>
    let prev := revTail.headD first
    if spanStart curr - spanEnd prev ≤ 1 / 1000 then
      mergeScanGroups first (curr :: revTail) rest
    else
      (first :: revTail.reverse) :: mergeScanGroups curr [] rest

/-- The sort key of _mergeByType: a.routeSpan?.startDistance || 0. -/
def mergeSortKey (b : Brunnel α) : α :=
  (b.routeSpan.map Span.startDistance).getD 0

/-- BrunnelAnalysis._mergeByType: sort by span start (JavaScript's stable
comparator sort, modelled by the stable mergeSort), scan into adjacency
groups and collapse each group. -/
def mergeByType (bs : List (Brunnel α)) : List (Brunnel α) :=
  match bs.mergeSort fun a b => decide (mergeSortKey a ≤ mergeSortKey b) with
  | [] => []
  | x :: xs => (mergeScanGroups x [] xs).map createMergedBrunnel

/-- BrunnelAnalysis.mergeAdjacentBrunnels: merge bridges and tunnels
separately and concatenate, bridges first. -/
def mergeAdjacentBrunnels (bs : List (Brunnel α)) : List (Brunnel α) :=
  mergeByType (bs.filter fun b => b.type = BrunnelType.bridge) ++
    mergeByType (bs.filter fun b => b.type = BrunnelType.tunnel)

/-- One entry of the simplified result array returned by locateBrunnels. -/
structure OutputBrunnel (α : Type*) where
  id : ℕ
  type : BrunnelType
  name : String
  startDistance : α
  endDistance : α
deriving DecidableEq, Repr

/-- The pure core of locateBrunnels, from the freshly constructed brunnel
list to the simplified result array: containment marking, span
computation, alignment marking, overlap resolution, restriction to the
included spanned brunnels, per-type adjacency merge, and projection to the
output records.  The route fetch, Overpass query and UI are outside the
core. -/
def locateBrunnelsCore (angle rb : Pt α → Pt α → α) (routeCoords : List (RP α))
    (brunnels : List (Brunnel α)) (routeBuffer bearingTolerance : α) :
    List (OutputBrunnel α) :=
  let bs1 := markContained angle brunnels routeCoords routeBuffer
  let bs2 := calculateRouteSpans angle bs1 routeCoords
  let cumulativeDistances := routeCoords.map RP.distance
  let bs3 := filterAligned rb bs2 routeCoords cumulativeDistances bearingTolerance
  let bs4 := handleOverlaps angle bs3 routeCoords
  let included := bs4.filter fun b => b.isIncluded && b.routeSpan.isSome
  let merged := mergeAdjacentBrunnels included
  merged.map fun b => ⟨b.id, b.type, b.name, spanStart b, spanEnd b⟩

end Analysis

section Units

/-- A JavaScript number produced by the unit converters: a finite value or
NaN (the result of dividing a number by a non-numeric truthy value). -/
inductive JsNum where
  | num (q : ℚ)
  | nan
deriving DecidableEq, Repr

/-- The own properties of the factors object literal of lengthToRadians and
radiansToLength in src/js/turf-csp.js, with their values. -/
def unitFactors (units : String) : Option ℚ :=
  if units = "meters" then some (63710088 / 10)
  else if units = "kilometres" then some (63710088 / 10000)
  else if units = "kilometers" then some (63710088 / 10000)
  else if units = "miles" then some (3958761333810546 / 1000000000000)
  else none

/-- Property names an object literal inherits from Object.prototype.  A
lookup factors[units] for one of these names finds the inherited member
(a function, or for proto the prototype object), which is truthy, so the
falsy-guard throw of the source is not reached. -/
def objectPrototypeProps : List String :=
  ["constructor", "hasOwnProperty", "isPrototypeOf", "propertyIsEnumerable",
   "toLocaleString", "toString", "valueOf", "__proto__",
   "__defineGetter__", "__defineSetter__", "__lookupGetter__", "__lookupSetter__"]

/-- lengthToRadians from src/js/turf-csp.js under JavaScript property-lookup
semantics: factors[units] walks the prototype chain, so an own factor gives
the numeric division, an Object.prototype member passes the !factor guard
and the division by a non-number yields NaN, and only a name found nowhere
on the chain (factor undefined, falsy) throws Invalid units. -/
def lengthToRadians (distance : ℚ) (units : String) : Except String JsNum :=
  match unitFactors units with
  | some factor => .ok (.num (distance / factor))
  | none =>
    if units ∈ objectPrototypeProps then .ok .nan
    else .error ("Invalid units: " ++ units)

/-- radiansToLength from src/js/turf-csp.js, same lookup semantics and the
same factors object. -/
def radiansToLength (radians : ℚ) (units : String) : Except String JsNum :=
  match unitFactors units with
  | some factor => .ok (.num (radians * factor))
  | none =>
    if units ∈ objectPrototypeProps then .ok .nan
    else .error ("Invalid units: " ++ units)

end Units

section RealHaversine

open Real

/-- degreesToRadians from src/js/turf-csp.js, over the reals. -/
noncomputable def degToRad (degrees : ℝ) : ℝ := degrees * Real.pi / 180

/-- JavaScript Math.atan2. -/
noncomputable def atan2 (y x : ℝ) : ℝ :=
  if 0 < x then Real.arctan (y / x)
  else if x = 0 then
    if 0 < y then Real.pi / 2 else if y < 0 then -(Real.pi / 2) else 0
  else
    if 0 ≤ y then Real.arctan (y / x) + Real.pi else Real.arctan (y / x) - Real.pi

/-- The haversine quantity a of turf's distance function:
sin^2(dLat/2) + sin^2(dLon/2) cos(lat1) cos(lat2), all angles converted to
radians. -/
noncomputable def haversineA (p q : Pt ℝ) : ℝ :=
  let dLat := degToRad (q.lat - p.lat)
  let dLon := degToRad (q.lon - p.lon)
  let lat1 := degToRad p.lat
  let lat2 := degToRad q.lat
  Real.sin (dLat / 2) ^ 2 + Real.sin (dLon / 2) ^ 2 * Real.cos lat1 * Real.cos lat2

/-- The central angle c = 2 atan2(sqrt a, sqrt(1-a)) of turf's distance
function: the haversine oracle instantiation used for the pipeline over
the reals.  turf.distance in kilometers is distKm haversineAngle. -/
noncomputable def haversineAngle (p q : Pt ℝ) : ℝ :=
  2 * atan2 (Real.sqrt (haversineA p q)) (Real.sqrt (1 - haversineA p q))

end RealHaversine

section ConcreteOracles

/-- A concrete central-angle oracle over the rationals used by witnesses
and counterexamples: the taxicab distance in degrees, rescaled so that
distKm taxiAngle is exactly the taxicab degree distance.  Any oracle is
admissible for the pipeline-level theorems; this one keeps witness
arithmetic exact. -/
def taxiAngle (p q : Pt ℚ) : ℚ :=
  (|q.lon - p.lon| + |q.lat - p.lat|) * 10000 / 63710088

/-- A degenerate bearing oracle: every segment has bearing 0. -/
def zeroBearing (_ _ : Pt ℚ) : ℚ := 0

end ConcreteOracles

section C4Defs

variable {α : Type*} [LinearOrderedField α]

/-- The route window as claim C4 words it: exactly the route trackpoints
whose reference distance falls within [start, end] converted to meters.
This definition follows the claim, not the source, and is compared against
getRouteSegment. -/
def windowWithin (routeCoords : List (RP α)) (cumulativeDistances : List α)
    (startDist endDist : α) : List (RP α) :=
  ((routeCoords.zip cumulativeDistances).filter fun pc =>
    decide (startDist * 1000 ≤ pc.2) && decide (pc.2 ≤ endDist * 1000)).map Prod.fst

/-- First-index characterization of getRouteSegment: the window is the
slice from one before the first trackpoint whose reference distance
reaches startDist (clamped at 0) through one after the first trackpoint
whose reference distance reaches endDist (clamped at the last index, and
the last index when none reaches it); empty when the span is degenerate or
no trackpoint reaches startDist. -/
def grsSpec (routeCoords : List (RP α)) (cumulativeDistances : List α)
    (startDist endDist : α) : List (RP α) :=
  if endDist ≤ startDist ∨ startDist < 0 then []
  else
    match cumulativeDistances.findIdx? (fun c => decide (startDist * 1000 ≤ c)) with
    | none => []
    | some is =>
      let ie :=
        match cumulativeDistances.findIdx? (fun c => decide (endDist * 1000 ≤ c)) with
        | none => routeCoords.length - 1
        | some j => min (routeCoords.length - 1) (j + 1)
      (routeCoords.drop (is - 1)).take (ie + 1 - (is - 1))

theorem grsGo_some (n : ℕ) (sM eM : α) (a : ℕ) :
    ∀ (rest : List α) (i : ℕ),
      grsGo n sM eM rest i (some a) =
        (some a, (rest.findIdx? fun c => decide (eM ≤ c)).map
          fun j => min (n - 1) (i + j + 1)) := by
  intro rest
  induction rest with
  | nil => intro i; rfl
  | cons c cs ih =>
    intro i
    by_cases h : eM ≤ c
    · simp [grsGo, h]
    · rw [show grsGo n sM eM (c :: cs) i (some a) =
        grsGo n sM eM cs (i + 1) (some a) by simp [grsGo, h]]
      rw [ih (i + 1)]
      cases hfe : cs.findIdx? fun c => decide (eM ≤ c) with
      | none => simp [h, hfe]
      | some j =>
        simp only [List.findIdx?_cons, decide_eq_true_eq, h, if_false, hfe,
          List.findIdx?_succ, Option.map_map, Option.map_some', Function.comp_apply,
          Prod.mk.injEq, Option.some.injEq, true_and]
        omega

theorem grsGo_none (n : ℕ) (sM eM : α) (hse : sM ≤ eM) :
    ∀ (rest : List α) (i : ℕ),
      grsGo n sM eM rest i none =
        (match rest.findIdx? fun c => decide (sM ≤ c) with
          | none => (none, none)
          | some k =>
            (some (i + k - 1), (rest.findIdx? fun c => decide (eM ≤ c)).map
              fun j => min (n - 1) (i + j + 1))) := by
  intro rest
  induction rest with
  | nil => intro i; rfl
  | cons c cs ih =>
    intro i
    by_cases hs : sM ≤ c
    · by_cases he : eM ≤ c
      · simp [grsGo, hs, he]
      · rw [show grsGo n sM eM (c :: cs) i none =
          grsGo n sM eM cs (i + 1) (some (i - 1)) by simp [grsGo, hs, he]]
        rw [grsGo_some n sM eM (i - 1) cs (i + 1)]
        cases hfe : cs.findIdx? fun c => decide (eM ≤ c) with
        | none => simp [hs, he, hfe]
        | some j =>
          simp only [List.findIdx?_cons, decide_eq_true_eq, hs, he, if_true, if_false,
            hfe, List.findIdx?_succ, Option.map_map, Option.map_some',
            Function.comp_apply, Prod.mk.injEq, Option.some.injEq]
          omega
    · have he : ¬ eM ≤ c := fun h => hs (le_trans hse h)
      rw [show grsGo n sM eM (c :: cs) i none =
        grsGo n sM eM cs (i + 1) none by simp [grsGo, hs, he]]
      rw [ih (i + 1)]
      cases hfs : cs.findIdx? fun c => decide (sM ≤ c) with
      | none => simp [hs, he, hfs]
      | some k =>
        cases hfe : cs.findIdx? fun c => decide (eM ≤ c) with
        | none =>
          simp only [List.findIdx?_cons, decide_eq_true_eq, hs, he, if_false,
            List.findIdx?_succ, hfs, hfe, Option.map_some', Option.map_none',
            Prod.mk.injEq, Option.some.injEq]
          exact ⟨by omega, trivial⟩
        | some j =>
          simp only [List.findIdx?_cons, decide_eq_true_eq, hs, he, if_false,
            List.findIdx?_succ, hfs, hfe, Option.map_map, Option.map_some',
            Function.comp_apply, Prod.mk.injEq, Option.some.injEq]
          omega

/-- C4 (amended): getRouteSegment equals its first-index characterization:
the window boundaries are one before the first trackpoint reaching the
span start and one after the first trackpoint reaching the span end,
unconditionally (clamped at the route ends), not only when the in-window
trackpoint count is under 2. -/
theorem c4_route_window_characterization (routeCoords : List (RP α))
    (cumulativeDistances : List α) (startDist endDist : α) :
    getRouteSegment routeCoords cumulativeDistances startDist endDist =
      grsSpec routeCoords cumulativeDistances startDist endDist := by
  unfold getRouteSegment grsSpec
  by_cases hguard : endDist ≤ startDist ∨ startDist < 0
  · simp [hguard]
  · simp only [hguard, if_false]
    have hse : startDist * 1000 ≤ endDist * 1000 := by
      push_neg at hguard
      nlinarith [hguard.1]
    rw [grsGo_none routeCoords.length (startDist * 1000) (endDist * 1000) hse]
    cases hfind : cumulativeDistances.findIdx? (fun c => decide (startDist * 1000 ≤ c)) with
    | none => simp
    | some is =>
      simp only
      cases hfe : cumulativeDistances.findIdx? (fun c => decide (endDist * 1000 ≤ c)) with
      | none => simp
      | some j => simp [Nat.zero_add]

end C4Defs

section C4Concrete

/-- Route points of the C4 counterexample. -/
def c4Coords : List (RP ℚ) := [⟨0, 0, 0⟩, ⟨0, 1, 100⟩, ⟨0, 2, 200⟩, ⟨0, 3, 300⟩]

/-- Reference distances of the C4 counterexample. -/
def c4Cum : List ℚ := [0, 100, 200, 300]

/-- C4 is false as stated: with reference distances [0,100,200,300] and
span [0.05 km, 0.25 km], the in-window trackpoint set has 2 points (no
expansion per the claim), yet getRouteSegment still expands by one on each
side and returns all 4 points. -/
theorem c4_counterexample :
    2 ≤ (windowWithin c4Coords c4Cum (1/20) (1/4)).length ∧
      getRouteSegment c4Coords c4Cum (1/20) (1/4) ≠
        windowWithin c4Coords c4Cum (1/20) (1/4) := by
  constructor
  · with_unfolding_all decide
  · with_unfolding_all decide

end C4Concrete

section C8Thm

/-- C8: the bearing fold maps equal bearings to 0 and bearings 180 degrees
apart to 0, for every bearing value, via the three-step fold of
getBearingDifference. -/
theorem c8_bearing_fold {α : Type*} [LinearOrderedField α] (b : α) :
    getBearingDifference b b = 0 ∧ getBearingDifference b (b + 180) = 0 := by
  constructor
  · unfold getBearingDifference
    norm_num
  · unfold getBearingDifference
    have h1 : |b - (b + 180)| = (180 : α) := by
      have : b - (b + 180) = (-180 : α) := by ring
      rw [this, abs_neg, abs_of_pos]
      norm_num
    rw [h1]
    norm_num

end C8Thm

section C9Thm

/-- C9 evaluated at the failing input: lengthToRadians and radiansToLength
do not throw for the unrecognized unit string toString (an
Object.prototype property leaking through the factors lookup); they
silently produce NaN, while a name absent from the prototype chain does
throw and the four recognized units convert without error. -/
theorem c9_unit_error_prototype_leak :
    lengthToRadians 5 "toString" = .ok .nan ∧
    radiansToLength 5 "toString" = .ok .nan ∧
    "toString" ∉ ["meters", "kilometres", "kilometers", "miles"] ∧
    lengthToRadians 5 "furlongs" = .error "Invalid units: furlongs" ∧
    (∃ q, lengthToRadians 5 "meters" = .ok (.num q)) ∧
    (∃ q, lengthToRadians 5 "kilometres" = .ok (.num q)) ∧
    (∃ q, lengthToRadians 5 "kilometers" = .ok (.num q)) ∧
    (∃ q, lengthToRadians 5 "miles" = .ok (.num q)) := by
  refine ⟨rfl, rfl, by decide, rfl, ⟨_, rfl⟩, ⟨_, rfl⟩, ⟨_, rfl⟩, ⟨_, rfl⟩⟩

end C9Thm

section C7Thm

variable {α : Type*} [LinearOrderedField α]

theorem brunnelWithinDistance_iff (angle : Pt α → Pt α → α) (b : Brunnel α)
    (routeCoords : List (RP α)) (bufferMeters : α) :
    brunnelWithinDistance angle b routeCoords bufferMeters = true ↔
      ∀ p ∈ b.turfPoints,
        distKm angle p (nearestOnRoute angle routeCoords p).point ≤ bufferMeters / 1000 := by
  simp [brunnelWithinDistance, List.all_eq_true]

/-- C7: a candidate all of whose vertices project within the buffer
distance of the route (distance taken to the vertex's nearestPointOnLine
result, in kilometers) passes the containment check unchanged and is
retained by filterContained; a candidate with any vertex projecting beyond
the buffer fails the check, is marked with exclusion reason outlier, and
is dropped from filterContained's return value. -/
theorem c7_containment_filter (angle : Pt α → Pt α → α) (routeCoords : List (RP α))
    (bufferMeters : α) (b : Brunnel α) :
    ((∀ p ∈ b.turfPoints,
        distKm angle p (nearestOnRoute angle routeCoords p).point ≤ bufferMeters / 1000) →
      brunnelWithinDistance angle b routeCoords bufferMeters = true ∧
      markContained angle [b] routeCoords bufferMeters = [b] ∧
      keptContained angle [b] routeCoords bufferMeters = [b]) ∧
    ((∃ p ∈ b.turfPoints,
        bufferMeters / 1000 < distKm angle p (nearestOnRoute angle routeCoords p).point) →
      brunnelWithinDistance angle b routeCoords bufferMeters = false ∧
      markContained angle [b] routeCoords bufferMeters =
        [{ b with exclusionReason := some ExclusionReason.outlier }] ∧
      keptContained angle [b] routeCoords bufferMeters = []) := by
  constructor
  · intro hwithin
    have hw : brunnelWithinDistance angle b routeCoords bufferMeters = true :=
      (brunnelWithinDistance_iff angle b routeCoords bufferMeters).mpr hwithin
    refine ⟨hw, ?_, ?_⟩
    · simp [markContained, hw]
    · simp [keptContained, hw]
  · intro hfar
    have hw : brunnelWithinDistance angle b routeCoords bufferMeters = false := by
      rcases hfar with ⟨p, hp, hlt⟩
      rcases Bool.eq_false_or_eq_true
        (brunnelWithinDistance angle b routeCoords bufferMeters) with h | h
      · exact absurd ((brunnelWithinDistance_iff angle b routeCoords bufferMeters).mp h p hp)
          (not_le.mpr hlt)
      · exact h
    refine ⟨hw, ?_, ?_⟩
    · simp [markContained, hw]
    · simp [keptContained, hw]

end C7Thm

section C2Thm

variable {α : Type*} [LinearOrderedField α]

theorem segScan_fst_le (angle : Pt α → Pt α → α) (loc : α) :
    ∀ (coords : List (RP α)) (i : ℕ) (cum : α),
      (segScan angle loc coords i cum).1 ≤ i + (coords.length - 1) := by
  intro coords
  induction coords with
  | nil => intro i cum; simp [segScan]
  | cons p1 rest ih =>
    intro i cum
    cases rest with
    | nil => simp [segScan]
    | cons p2 rest' =>
      by_cases h : loc ≤ cum + distKm angle p1.toPt p2.toPt
      · simp only [segScan, h, if_true]
        omega
      · simp only [segScan, h, if_false]
        have := ih (i + 1) (cum + distKm angle p1.toPt p2.toPt)
        simp only [List.length_cons] at this ⊢
        omega

theorem turfLocationToBiketerraDistance_bounds (angle : Pt α → Pt α → α) (loc : α)
    (coords : List (RP α)) (h2 : 2 ≤ coords.length)
    (hmono : (coords.map RP.distance).Chain' (· ≤ ·))
    (hhead : (coords.map RP.distance).getD 0 0 = 0) :
    0 ≤ turfLocationToBiketerraDistance angle loc coords ∧
      turfLocationToBiketerraDistance angle loc coords ≤
        (coords.map RP.distance).getD (coords.length - 1) 0 / 1000 := by
  have hpair : (coords.map RP.distance).Pairwise (· ≤ ·) :=
    List.chain'_iff_pairwise.mp hmono
  have hgetpair := List.pairwise_iff_get.mp hpair
  have hlenmap : (coords.map RP.distance).length = coords.length := List.length_map _ _
  -- the clamped bracketing segment index
  set si := min (segScan angle loc coords 0 0).1 (coords.length - 2) with hsi
  have hsilt : si < coords.length - 1 + 1 := by
    have : si ≤ coords.length - 2 := min_le_right _ _
    omega
  have hsi1lt : si + 1 < coords.length := by
    have : si ≤ coords.length - 2 := min_le_right _ _
    omega
  have hsilt' : si < coords.length := by omega
  -- reference distances of the bracketing segment, monotone and within range
  have hd1 : (coords.getD si junkRP).distance = (coords.map RP.distance).getD si 0 := by
    rw [List.getD_eq_getElem _ _ hsilt', List.getD_eq_getElem _ _ (by omega),
      List.getElem_map]
  have hd2 : (coords.getD (si + 1) junkRP).distance =
      (coords.map RP.distance).getD (si + 1) 0 := by
    rw [List.getD_eq_getElem _ _ hsi1lt, List.getD_eq_getElem _ _ (by omega),
      List.getElem_map]
  have hmapget : ∀ i, (hi : i < coords.length) →
      (coords.map RP.distance).getD i 0 =
        (coords.map RP.distance).get ⟨i, by rw [hlenmap]; exact hi⟩ := by
    intro i hi
    rw [List.getD_eq_getElem _ _ (by omega), List.get_eq_getElem]
  have h01 : (coords.map RP.distance).getD 0 0 ≤ (coords.map RP.distance).getD si 0 := by
    rcases Nat.eq_zero_or_pos si with h0 | hpos
    · rw [h0]
    · rw [hmapget 0 (by omega), hmapget si hsilt']
      exact hgetpair _ _ (Fin.mk_lt_mk.mpr hpos)
  have h12 : (coords.map RP.distance).getD si 0 ≤
      (coords.map RP.distance).getD (si + 1) 0 := by
    rw [hmapget si hsilt', hmapget (si + 1) hsi1lt]
    exact hgetpair _ _ (Fin.mk_lt_mk.mpr (by omega))
  have h2last : (coords.map RP.distance).getD (si + 1) 0 ≤
      (coords.map RP.distance).getD (coords.length - 1) 0 := by
    rcases Nat.lt_or_ge (si + 1) (coords.length - 1) with hlt | hge
    · rw [hmapget (si + 1) hsi1lt, hmapget (coords.length - 1) (by omega)]
      exact hgetpair _ _ (Fin.mk_lt_mk.mpr hlt)
    · have : si + 1 = coords.length - 1 := by omega
      rw [this]
  -- the interpolation parameter is clamped into the unit interval
  have hd1' : 0 ≤ (coords.getD si junkRP).distance := by
    rw [hd1]
    calc (0 : α) = (coords.map RP.distance).getD 0 0 := hhead.symm
    _ ≤ _ := h01
  have hd12 : (coords.getD si junkRP).distance ≤ (coords.getD (si + 1) junkRP).distance := by
    rw [hd1, hd2]; exact h12
  unfold turfLocationToBiketerraDistance
  simp only [← hsi]
  set d1 := (coords.getD si junkRP).distance with hd1def
  set d2 := (coords.getD (si + 1) junkRP).distance with hd2def
  set segLen := distKm angle (coords.getD si junkRP).toPt
    ((coords.getD (si + 1) junkRP).toPt) with hseg
  set t := if 0 < segLen then
    min 1 (max 0 ((loc - (segScan angle loc coords 0 0).2) / segLen)) else 0 with ht
  have ht01 : 0 ≤ t ∧ t ≤ 1 := by
    rw [ht]
    split
    · constructor
      · exact le_min (by norm_num) (le_max_left 0 _)
      · exact min_le_left _ _
    · norm_num
  have hinterp : 0 ≤ d1 + t * (d2 - d1) ∧ d1 + t * (d2 - d1) ≤ d2 := by
    constructor
    · nlinarith [ht01.1, ht01.2, hd1', hd12]
    · nlinarith [ht01.1, ht01.2, hd12]
  constructor
  · have := hinterp.1
    positivity
  · have hle : d1 + t * (d2 - d1) ≤ (coords.map RP.distance).getD (coords.length - 1) 0 :=
      le_trans hinterp.2 (le_trans (le_of_eq hd2) h2last)
    gcongr

/-- C2: for a candidate with at least one vertex and a route with at least
2 points whose reference distances are non-decreasing and start at 0, the
computed route span exists and satisfies
0 <= start <= end <= total reference distance, the span being expressed in
kilometers and the reference distances in meters (the source divides by
1000), so the bound on the span end is the final reference distance
divided by 1000. -/
theorem c2_route_span_bounds (angle : Pt α → Pt α → α) (b : Brunnel α)
    (coords : List (RP α)) (hb : b.geometry ≠ [])
    (h2 : 2 ≤ coords.length)
    (hmono : (coords.map RP.distance).Chain' (· ≤ ·))
    (hhead : (coords.map RP.distance).getD 0 0 = 0) :
    ∃ sp, calculateRouteSpan angle b coords = some sp ∧
      0 ≤ sp.startDistance ∧ sp.startDistance ≤ sp.endDistance ∧
      sp.endDistance ≤ (coords.map RP.distance).getD (coords.length - 1) 0 / 1000 := by
  set sd := turfLocationToBiketerraDistance angle
    (nearestOnRoute angle coords ((b.turfPoints).headD ⟨0, 0⟩)).location coords with hsddef
  set ed := turfLocationToBiketerraDistance angle
    (nearestOnRoute angle coords ((b.turfPoints).getLastD ⟨0, 0⟩)).location coords with heddef
  have hsd := turfLocationToBiketerraDistance_bounds angle
    (nearestOnRoute angle coords ((b.turfPoints).headD ⟨0, 0⟩)).location coords h2 hmono hhead
  have hed := turfLocationToBiketerraDistance_bounds angle
    (nearestOnRoute angle coords ((b.turfPoints).getLastD ⟨0, 0⟩)).location coords h2 hmono hhead
  rw [← hsddef] at hsd
  rw [← heddef] at hed
  refine ⟨⟨min sd ed, max sd ed⟩, ?_, le_min hsd.1 hed.1, min_le_max, max_le hsd.2 hed.2⟩
  match hg : b.geometry, hb with
  | g0 :: grest, _ =>
    simp only [calculateRouteSpan, hg, hsddef, heddef]

end C2Thm

section C6Thm

variable {α : Type*} [LinearOrderedField α]

omit [LinearOrderedField α] in
theorem mergeSort_pair (le : Brunnel α → Brunnel α → Bool) (a b : Brunnel α) :
    List.mergeSort [a, b] le = if le a b then [a, b] else [b, a] := by
  simp [List.mergeSort, List.merge]

theorem intercalate_pair (n1 n2 : String) :
    String.intercalate "; " [n1, n2] = n1 ++ "; " ++ n2 := by
  simp [String.intercalate, String.intercalate.go]

theorem BrunnelType.eq_bridge_or_eq_tunnel (t : BrunnelType) :
    t = BrunnelType.bridge ∨ t = BrunnelType.tunnel := by
  cases t
  · exact Or.inl rfl
  · exact Or.inr rfl

theorem mergeByType_singleton (b : Brunnel α) : mergeByType [b] = [b] := by
  simp [mergeByType, List.mergeSort_singleton, mergeScanGroups, createMergedBrunnel]

theorem mergeByType_adjacent_pair (b1 b2 : Brunnel α) (x1 y1 x2 y2 : α)
    (hs1 : b1.routeSpan = some ⟨x1, y1⟩) (hs2 : b2.routeSpan = some ⟨x2, y2⟩)
    (hx : x1 ≤ x2) (hgap : x2 - y1 ≤ 1 / 1000) :
    mergeByType [b1, b2] =
      [{ b1 with
          routeSpan := some ⟨min x1 x2, max y1 y2⟩
          name := (if b1.name = b2.name then b1.name
            else b1.name ++ "; " ++ b2.name) }] := by
  have hsorted : List.mergeSort [b1, b2]
      (fun a b => decide (mergeSortKey a ≤ mergeSortKey b)) = [b1, b2] := by
    rw [mergeSort_pair]
    simp [mergeSortKey, hs1, hs2, hx]
  have hscan : mergeScanGroups b1 [] [b2] = [[b1, b2]] := by
    simp only [mergeScanGroups, List.headD_nil, spanStart, spanEnd, hs1, hs2,
      Option.getD_some, List.reverse_cons, List.reverse_nil, List.nil_append,
      if_pos hgap]
  have hcm : createMergedBrunnel [b1, b2] =
      { b1 with
          routeSpan := some ⟨min x1 x2, max y1 y2⟩
          name := (if b1.name = b2.name then b1.name
            else b1.name ++ "; " ++ b2.name) } := by
    by_cases hn : b1.name = b2.name
    · simp [createMergedBrunnel, spanStart, spanEnd, hs1, hs2, jsDedup, hn]
    · simp [createMergedBrunnel, spanStart, spanEnd, hs1, hs2, jsDedup, hn,
        Ne.symm hn, intercalate_pair]
  rw [mergeByType, hsorted]
  simp only [hscan, List.map_cons, List.map_nil, hcm]

/-- C6: adjacency merge never mixes types (a bridge and a tunnel pass
through unmerged no matter their spans), and two same-type candidates
sorted by span start whose gap (next start minus previous end) is at most
0.001 km collapse to one representative carrying the union span (min
start, max end) and the de-duplicated '; '-joined name. -/
theorem c6_adjacency_merge (b1 b2 : Brunnel α) (x1 y1 x2 y2 : α)
    (hs1 : b1.routeSpan = some ⟨x1, y1⟩) (hs2 : b2.routeSpan = some ⟨x2, y2⟩) :
    (b1.type = b2.type → x1 ≤ x2 → x2 - y1 ≤ 1 / 1000 →
      mergeAdjacentBrunnels [b1, b2] =
        [{ b1 with
            routeSpan := some ⟨min x1 x2, max y1 y2⟩
            name := (if b1.name = b2.name then b1.name
              else b1.name ++ "; " ++ b2.name) }]) ∧
    (b1.type = BrunnelType.bridge → b2.type = BrunnelType.tunnel →
      mergeAdjacentBrunnels [b1, b2] = [b1, b2]) := by
  constructor
  · intro htype hx hgap
    unfold mergeAdjacentBrunnels
    rcases BrunnelType.eq_bridge_or_eq_tunnel b1.type with ht1 | ht1
    · have ht2 : b2.type = BrunnelType.bridge := by rw [← htype, ht1]
      rw [show List.filter (fun b => decide (b.type = BrunnelType.bridge)) [b1, b2] =
          [b1, b2] by simp [List.filter, ht1, ht2]]
      rw [show List.filter (fun b => decide (b.type = BrunnelType.tunnel)) [b1, b2] =
          [] by simp [List.filter, ht1, ht2]]
      rw [mergeByType_adjacent_pair b1 b2 x1 y1 x2 y2 hs1 hs2 hx hgap]
      simp [mergeByType]
    · have ht2 : b2.type = BrunnelType.tunnel := by rw [← htype, ht1]
      rw [show List.filter (fun b => decide (b.type = BrunnelType.bridge)) [b1, b2] =
          [] by simp [List.filter, ht1, ht2]]
      rw [show List.filter (fun b => decide (b.type = BrunnelType.tunnel)) [b1, b2] =
          [b1, b2] by simp [List.filter, ht1, ht2]]
      rw [mergeByType_adjacent_pair b1 b2 x1 y1 x2 y2 hs1 hs2 hx hgap]
      simp [mergeByType]
  · intro ht1 ht2
    unfold mergeAdjacentBrunnels
    rw [show List.filter (fun b => decide (b.type = BrunnelType.bridge)) [b1, b2] =
        [b1] by simp_all [List.filter]]
    rw [show List.filter (fun b => decide (b.type = BrunnelType.tunnel)) [b1, b2] =
        [b2] by simp_all [List.filter]]
    rw [mergeByType_singleton, mergeByType_singleton]
    rfl

end C6Thm

section Witnesses1

/-- Route used by concrete witnesses: two points on the equator, 2 km of
reference distance. -/
def w2Route : List (RP ℚ) := [⟨0, 0, 0⟩, ⟨0, 2, 2000⟩]

/-- A single-vertex candidate lying on the witness route. -/
def w2Brunnel : Brunnel ℚ := ⟨1, BrunnelType.bridge, "B", [⟨0, 1⟩], none, none⟩

theorem c2_route_span_bounds_witness :
    ∃ sp, calculateRouteSpan taxiAngle w2Brunnel w2Route = some sp ∧
      0 ≤ sp.startDistance ∧ sp.startDistance ≤ sp.endDistance ∧
      sp.endDistance ≤ (w2Route.map RP.distance).getD (w2Route.length - 1) 0 / 1000 :=
  c2_route_span_bounds taxiAngle w2Brunnel w2Route
    (by with_unfolding_all decide) (by with_unfolding_all decide)
    (by norm_num [w2Route, List.chain'_cons, List.chain'_singleton])
    (by with_unfolding_all decide)

/-- First merge witness: a bridge spanning [1.000, 1.050] km. -/
def w6a : Brunnel ℚ := ⟨1, BrunnelType.bridge, "A", [⟨0, 0⟩], some ⟨1, 21/20⟩, none⟩

/-- Second merge witness: a bridge spanning [1.0505, 1.100] km. -/
def w6b : Brunnel ℚ := ⟨2, BrunnelType.bridge, "B", [⟨0, 1⟩], some ⟨2101/2000, 11/10⟩, none⟩

/-- Tunnel twin of the second merge witness. -/
def w6c : Brunnel ℚ := ⟨3, BrunnelType.tunnel, "B", [⟨0, 1⟩], some ⟨2101/2000, 11/10⟩, none⟩

theorem c6_adjacency_merge_witness :
    mergeAdjacentBrunnels [w6a, w6b] =
      [{ w6a with
          routeSpan := some ⟨1, 11/10⟩
          name := "A; B" }] ∧
    mergeAdjacentBrunnels [w6a, w6c] = [w6a, w6c] := by
  constructor
  · have h := (c6_adjacency_merge w6a w6b 1 (21/20) (2101/2000) (11/10) rfl rfl).1
      rfl (by norm_num) (by norm_num)
    rw [h]
    norm_num [min_eq_left, max_eq_right]
    with_unfolding_all decide
  · exact (c6_adjacency_merge w6a w6c 1 (21/20) (2101/2000) (11/10) rfl rfl).2 rfl rfl

theorem c7_containment_filter_witness :
    brunnelWithinDistance taxiAngle w2Brunnel w2Route 3 = true ∧
    markContained taxiAngle [w2Brunnel] w2Route 3 = [w2Brunnel] ∧
    keptContained taxiAngle [w2Brunnel] w2Route 3 = [w2Brunnel] :=
  (c7_containment_filter taxiAngle w2Route 3 w2Brunnel).1 (by with_unfolding_all decide)

end Witnesses1

section StageLemmas

variable {α : Type*} [LinearOrderedField α]

theorem getD_map_of_default {β : Type*} (f : β → β) (d : β) (hd : f d = d) :
    ∀ (l : List β) (i : ℕ), (l.map f).getD i d = f (l.getD i d) := by
  intro l i
  by_cases h : i < l.length
  · rw [List.getD_eq_getElem _ _ (by simpa using h), List.getD_eq_getElem _ _ h,
      List.getElem_map]
  · rw [List.getD_eq_default _ _ (by simpa using Nat.le_of_not_lt h),
      List.getD_eq_default _ _ (Nat.le_of_not_lt h), hd]

theorem markContained_junk (angle : Pt α → Pt α → α) (routeCoords : List (RP α))
    (bufferMeters : α) :
    (if brunnelWithinDistance angle junkBrunnel routeCoords bufferMeters then junkBrunnel
      else { junkBrunnel with exclusionReason := some ExclusionReason.outlier }) =
      (junkBrunnel : Brunnel α) := by
  have : brunnelWithinDistance angle (junkBrunnel : Brunnel α) routeCoords bufferMeters
      = true := by
    simp [brunnelWithinDistance, junkBrunnel, Brunnel.turfPoints]
  rw [this]
  simp

theorem markAlternatives_getD (marked : List ℕ) :
    ∀ (bs : List (Brunnel α)) (k i : ℕ),
      (markAlternatives marked k bs).getD i junkBrunnel =
        (if (k + i) ∈ marked ∧ i < bs.length then
          { bs.getD i junkBrunnel with exclusionReason := some ExclusionReason.alternative }
        else bs.getD i junkBrunnel) := by
  intro bs
  induction bs with
  | nil =>
    intro k i
    simp [markAlternatives]
  | cons b rest ih =>
    intro k i
    cases i with
    | zero =>
      by_cases hm : k ∈ marked
      · simp [markAlternatives, hm]
      · simp [markAlternatives, hm]
    | succ j =>
      have : (markAlternatives marked k (b :: rest)).getD (j + 1) junkBrunnel =
          (markAlternatives marked (k + 1) rest).getD j junkBrunnel := by
        simp [markAlternatives]
      rw [this, ih (k + 1) j]
      have harith : k + 1 + j = k + (j + 1) := by omega
      rw [harith]
      by_cases hc : (k + (j + 1)) ∈ marked ∧ j < rest.length
      · rw [if_pos hc, if_pos (by exact ⟨hc.1, by simpa using Nat.succ_lt_succ hc.2⟩)]
        simp
      · rw [if_neg hc, if_neg (by
          intro hcon
          exact hc ⟨hcon.1, by simpa using Nat.lt_of_succ_lt_succ hcon.2⟩)]
        simp

theorem mergeScanGroups_cons (first curr : Brunnel α) (revTail rest : List (Brunnel α)) :
    mergeScanGroups first revTail (curr :: rest) =
      if spanStart curr - spanEnd (revTail.headD first) ≤ 1 / 1000 then
        mergeScanGroups first (curr :: revTail) rest
      else (first :: revTail.reverse) :: mergeScanGroups curr [] rest := rfl

theorem mergeScanGroups_flatten :
    ∀ (rest : List (Brunnel α)) (first : Brunnel α) (revTail : List (Brunnel α)),
      (mergeScanGroups first revTail rest).flatten = first :: (revTail.reverse ++ rest) := by
  intro rest
  induction rest with
  | nil => intro first revTail; simp [mergeScanGroups]
  | cons curr rest' ih =>
    intro first revTail
    by_cases h : spanStart curr - spanEnd (revTail.headD first) ≤ 1 / 1000
    · rw [mergeScanGroups_cons, if_pos h, ih]
      simp
    · rw [mergeScanGroups_cons, if_neg h, List.flatten_cons, ih]
      simp

theorem mergeScanGroups_ne_nil :
    ∀ (rest : List (Brunnel α)) (first : Brunnel α) (revTail : List (Brunnel α)),
      ∀ g ∈ mergeScanGroups first revTail rest, g ≠ [] := by
  intro rest
  induction rest with
  | nil =>
    intro first revTail g hg
    simp [mergeScanGroups] at hg
    simp [hg]
  | cons curr rest' ih =>
    intro first revTail g hg
    by_cases h : spanStart curr - spanEnd (revTail.headD first) ≤ 1 / 1000
    · rw [mergeScanGroups_cons, if_pos h] at hg
      exact ih first (curr :: revTail) g hg
    · rw [mergeScanGroups_cons, if_neg h] at hg
      rcases List.mem_cons.mp hg with hg1 | hg2
      · simp [hg1]
      · exact ih curr [] g hg2

theorem createMergedBrunnel_fields (g : List (Brunnel α)) (hg : g ≠ []) :
    (createMergedBrunnel g).type = (g.headD junkBrunnel).type ∧
    (createMergedBrunnel g).exclusionReason = (g.headD junkBrunnel).exclusionReason := by
  match g, hg with
  | [b], _ => simp [createMergedBrunnel]
  | b :: c :: rest, _ => simp [createMergedBrunnel]

/-- Every element of a merged list inherits its type and exclusion reason
from some element of the input list. -/
theorem mergeByType_mem_source (bs : List (Brunnel α)) :
    ∀ b' ∈ mergeByType bs, ∃ b ∈ bs, b'.type = b.type ∧
      b'.exclusionReason = b.exclusionReason := by
  intro b' hb'
  unfold mergeByType at hb'
  cases hsort : bs.mergeSort fun a b => decide (mergeSortKey a ≤ mergeSortKey b) with
  | nil => rw [hsort] at hb'; simp at hb'
  | cons x xs =>
    rw [hsort] at hb'
    rcases List.mem_map.mp hb' with ⟨g, hg, hcm⟩
    have hne : g ≠ [] := mergeScanGroups_ne_nil xs x [] g hg
    have hfields := createMergedBrunnel_fields g hne
    have hhead : (g.headD junkBrunnel) ∈ g := by
      match g, hne with
      | b :: rest, _ => simp
    have hmemflat : (g.headD junkBrunnel) ∈ (mergeScanGroups x [] xs).flatten := by
      exact List.mem_flatten.mpr ⟨g, hg, hhead⟩
    rw [mergeScanGroups_flatten] at hmemflat
    simp only [List.reverse_nil, List.nil_append] at hmemflat
    have hmemsort : (g.headD junkBrunnel) ∈
        bs.mergeSort fun a b => decide (mergeSortKey a ≤ mergeSortKey b) := by
      rw [hsort]; exact hmemflat
    have hmem : (g.headD junkBrunnel) ∈ bs := List.mem_mergeSort.mp hmemsort
    exact ⟨g.headD junkBrunnel, hmem, by rw [← hcm]; exact hfields.1,
      by rw [← hcm]; exact hfields.2⟩

end StageLemmas

section C10Thm

variable {α : Type*} [LinearOrderedField α]

/-- C10: exclusionReason starts null at construction and each pipeline
stage either leaves a brunnel's reason unchanged or sets the stage's own
non-null reason (outlier, misaligned, alternative); the adjacency merge
only ever copies an existing reason.  In particular no stage resets a
non-null reason to null, so inclusion is monotonically non-increasing. -/
theorem c10_exclusion_monotone :
    (∀ (id : ℕ) (ty : BrunnelType) (nm : String) (geo : List (LL α)),
      (mkBrunnel id ty nm geo).exclusionReason = none) ∧
    (∀ (angle : Pt α → Pt α → α) (bs : List (Brunnel α)) (routeCoords : List (RP α))
        (buf : α) (i : ℕ),
      ((markContained angle bs routeCoords buf).getD i junkBrunnel).exclusionReason =
          (bs.getD i junkBrunnel).exclusionReason ∨
        ((markContained angle bs routeCoords buf).getD i junkBrunnel).exclusionReason =
          some ExclusionReason.outlier) ∧
    (∀ (rb : Pt α → Pt α → α) (bs : List (Brunnel α)) (routeCoords : List (RP α))
        (cum : List α) (tol : α) (i : ℕ),
      ((filterAligned rb bs routeCoords cum tol).getD i junkBrunnel).exclusionReason =
          (bs.getD i junkBrunnel).exclusionReason ∨
        ((filterAligned rb bs routeCoords cum tol).getD i junkBrunnel).exclusionReason =
          some ExclusionReason.misaligned) ∧
    (∀ (angle : Pt α → Pt α → α) (bs : List (Brunnel α)) (routeCoords : List (RP α))
        (i : ℕ),
      ((handleOverlaps angle bs routeCoords).getD i junkBrunnel).exclusionReason =
          (bs.getD i junkBrunnel).exclusionReason ∨
        ((handleOverlaps angle bs routeCoords).getD i junkBrunnel).exclusionReason =
          some ExclusionReason.alternative) ∧
    (∀ (bs : List (Brunnel α)), ∀ b' ∈ mergeAdjacentBrunnels bs,
      ∃ b ∈ bs, b'.exclusionReason = b.exclusionReason) := by
  refine ⟨?_, ?_, ?_, ?_, ?_⟩
  · intro id ty nm geo
    rfl
  · intro angle bs routeCoords buf i
    unfold markContained
    rw [getD_map_of_default _ junkBrunnel (markContained_junk angle routeCoords buf) bs i]
    by_cases h : brunnelWithinDistance angle (bs.getD i junkBrunnel) routeCoords buf
    · rw [if_pos h]
      exact Or.inl rfl
    · rw [if_neg h]
      exact Or.inr rfl
  · intro rb bs routeCoords cum tol i
    unfold filterAligned
    rw [getD_map_of_default (fun b : Brunnel α =>
        if b.isIncluded then
          if b.isAligned rb routeCoords cum tol then b
          else { b with exclusionReason := some ExclusionReason.misaligned }
        else b) junkBrunnel
      (by simp [junkBrunnel, Brunnel.isIncluded, Brunnel.isAligned]) bs i]
    by_cases h1 : (bs.getD i junkBrunnel).isIncluded
    · by_cases h2 : Brunnel.isAligned rb (bs.getD i junkBrunnel) routeCoords cum tol
      · rw [if_pos h1, if_pos h2]
        exact Or.inl rfl
      · rw [if_pos h1, if_neg h2]
        exact Or.inr rfl
    · rw [if_neg h1]
      exact Or.inl rfl
  · intro angle bs routeCoords i
    unfold handleOverlaps
    rw [markAlternatives_getD (overlapMarked angle bs routeCoords) bs 0 i]
    by_cases h : (0 + i) ∈ overlapMarked angle bs routeCoords ∧ i < bs.length
    · rw [if_pos h]
      exact Or.inr rfl
    · rw [if_neg h]
      exact Or.inl rfl
  · intro bs b' hb'
    unfold mergeAdjacentBrunnels at hb'
    rcases List.mem_append.mp hb' with hmem | hmem
    · rcases mergeByType_mem_source _ b' hmem with ⟨b, hb, _, hreason⟩
      exact ⟨b, List.mem_of_mem_filter hb, hreason⟩
    · rcases mergeByType_mem_source _ b' hmem with ⟨b, hb, _, hreason⟩
      exact ⟨b, List.mem_of_mem_filter hb, hreason⟩

theorem c10_exclusion_monotone_witness :
    (((markContained taxiAngle [w2Brunnel] w2Route 3).getD 0 junkBrunnel).exclusionReason =
        (([w2Brunnel].getD 0 junkBrunnel) : Brunnel ℚ).exclusionReason ∨
      ((markContained taxiAngle [w2Brunnel] w2Route 3).getD 0 junkBrunnel).exclusionReason =
        some ExclusionReason.outlier) ∧
    (∃ b ∈ [w2Brunnel],
      ((mergeAdjacentBrunnels [w2Brunnel]).getD 0 junkBrunnel).exclusionReason =
        b.exclusionReason) := by
  constructor
  · exact (@c10_exclusion_monotone ℚ _).2.1 taxiAngle [w2Brunnel] w2Route 3 0
  · exact (@c10_exclusion_monotone ℚ _).2.2.2.2 [w2Brunnel]
      ((mergeAdjacentBrunnels [w2Brunnel]).getD 0 junkBrunnel)
      (by with_unfolding_all decide)

end C10Thm

section C5Lemmas

variable {α : Type*} [LinearOrderedField α]

theorem insertIntoGroups_flatten_perm (ov : ℕ → ℕ → Bool) :
    ∀ (gs : List (List ℕ)) (i : ℕ),
      (insertIntoGroups ov gs i).flatten.Perm (i :: gs.flatten) := by
  intro gs
  induction gs with
  | nil => intro i; simp [insertIntoGroups]
  | cons g gs' ih =>
    intro i
    by_cases h : g.any fun j => ov i j
    · rw [show insertIntoGroups ov (g :: gs') i = (g ++ [i]) :: gs' by
        simp [insertIntoGroups, h]]
      rw [List.flatten_cons, List.flatten_cons, List.append_assoc]
      exact List.perm_middle
    · rw [show insertIntoGroups ov (g :: gs') i = g :: insertIntoGroups ov gs' i by
        simp [insertIntoGroups, h]]
      rw [List.flatten_cons, List.flatten_cons]
      exact ((ih i).append_left g).trans List.perm_middle

theorem foldl_insert_flatten_perm (ov : ℕ → ℕ → Bool) :
    ∀ (l : List ℕ) (gs : List (List ℕ)),
      ((l.foldl (insertIntoGroups ov) gs).flatten).Perm (l ++ gs.flatten) := by
  intro l
  induction l with
  | nil => intro gs; simp
  | cons i l' ih =>
    intro gs
    rw [List.foldl_cons]
    exact ((ih (insertIntoGroups ov gs i)).trans
      ((insertIntoGroups_flatten_perm ov gs i).append_left l')).trans List.perm_middle

theorem overlapGroups_flatten_perm (bs : List (Brunnel α)) :
    (overlapGroups bs).flatten.Perm (overlapIdx bs) := by
  have h := foldl_insert_flatten_perm (overlapTest bs) (overlapIdx bs) []
  simpa [overlapGroups] using h

theorem overlapIdx_nodup (bs : List (Brunnel α)) : (overlapIdx bs).Nodup :=
  (List.nodup_range _).filter _

theorem overlapGroups_flatten_nodup (bs : List (Brunnel α)) :
    (overlapGroups bs).flatten.Nodup :=
  ((overlapGroups_flatten_perm bs).nodup_iff).mpr (overlapIdx_nodup bs)

theorem mem_overlapIdx_of_mem_group (bs : List (Brunnel α)) (g : List ℕ)
    (hg : g ∈ overlapGroups bs) (j : ℕ) (hj : j ∈ g) : j ∈ overlapIdx bs :=
  (overlapGroups_flatten_perm bs).mem_iff.mp (List.mem_flatten.mpr ⟨g, hg, hj⟩)

theorem mem_overlapIdx_spec (bs : List (Brunnel α)) (j : ℕ) (hj : j ∈ overlapIdx bs) :
    j < bs.length ∧ (bs.getD j junkBrunnel).exclusionReason = none ∧
      (bs.getD j junkBrunnel).routeSpan.isSome := by
  unfold overlapIdx at hj
  rcases List.mem_filter.mp hj with ⟨hr, hp⟩
  refine ⟨List.mem_range.mp hr, ?_, ?_⟩
  · have := (Bool.and_eq_true _ _).mp hp |>.1
    simpa [Brunnel.isIncluded, Option.isNone_iff_eq_none] using this
  · exact (Bool.and_eq_true _ _).mp hp |>.2

theorem mergeSort_head_strict_min (avg : ℕ → α) (g : List ℕ) (hnd : g.Nodup)
    (m : ℕ) (hm : m ∈ g) (hmin : ∀ j ∈ g, j ≠ m → avg m < avg j) :
    ∃ tl, (g.mergeSort fun i j => decide (avg i ≤ avg j)) = m :: tl ∧ m ∉ tl ∧
      ∀ j, (j ∈ tl ↔ j ∈ g ∧ j ≠ m) := by
  set le : ℕ → ℕ → Bool := fun i j => decide (avg i ≤ avg j) with hle
  have hperm : (g.mergeSort le).Perm g := List.mergeSort_perm g le
  have hsorted : (g.mergeSort le).Pairwise (fun a b => le a b = true) :=
    List.sorted_mergeSort
      (fun a b c hab hbc => by
        simp only [hle, decide_eq_true_eq] at hab hbc ⊢
        exact le_trans hab hbc)
      (fun a b => by
        simp only [hle, Bool.or_eq_true, decide_eq_true_eq]
        exact le_total (avg a) (avg b))
      g
  have hmem : m ∈ g.mergeSort le := (List.mem_mergeSort).mpr hm
  cases hsort : g.mergeSort le with
  | nil => rw [hsort] at hmem; simp at hmem
  | cons h tl =>
    have hhg : h ∈ g := (List.mem_mergeSort).mp (by rw [hsort]; simp)
    have hhead : h = m := by
      by_contra hne
      have hmtl : m ∈ tl := by
        rw [hsort] at hmem
        rcases List.mem_cons.mp hmem with h1 | h1
        · exact absurd h1.symm hne
        · exact h1
      have hle1 : avg h ≤ avg m := by
        rw [hsort] at hsorted
        have := (List.pairwise_cons.mp hsorted).1 m hmtl
        simpa [hle] using this
      exact absurd hle1 (not_le.mpr (hmin h hhg (fun he => hne he)))
    subst hhead
    have hnd' : (g.mergeSort le).Nodup := (hperm.nodup_iff).mpr hnd
    rw [hsort] at hnd'
    have hmnotin : h ∉ tl := (List.nodup_cons.mp hnd').1
    refine ⟨tl, rfl, hmnotin, ?_⟩
    intro j
    constructor
    · intro hj
      have hjg : j ∈ g := (List.mem_mergeSort).mp (by rw [hsort]; simp [hj])
      refine ⟨hjg, ?_⟩
      intro he
      exact hmnotin (he ▸ hj)
    · rintro ⟨hjg, hne⟩
      have : j ∈ g.mergeSort le := (List.mem_mergeSort).mpr hjg
      rw [hsort] at this
      rcases List.mem_cons.mp this with h1 | h1
      · exact absurd h1 hne
      · exact h1

theorem mem_overlapMarked_iff (angle : Pt α → Pt α → α) (bs : List (Brunnel α))
    (routeCoords : List (RP α)) (j : ℕ) :
    j ∈ overlapMarked angle bs routeCoords ↔
      ∃ g ∈ overlapGroups bs, 1 < g.length ∧
        j ∈ (g.mergeSort fun i k =>
          decide (overlapAvg angle bs routeCoords i ≤ overlapAvg angle bs routeCoords k)).tail := by
  unfold overlapMarked
  rw [List.mem_flatten]
  constructor
  · rintro ⟨l, hl, hjl⟩
    rcases List.mem_map.mp hl with ⟨g, hg, hgl⟩
    by_cases hlen : 1 < g.length
    · exact ⟨g, hg, hlen, by rw [← hgl] at hjl; simpa [hlen] using hjl⟩
    · rw [← hgl] at hjl
      simp [hlen] at hjl
  · rintro ⟨g, hg, hlen, hj⟩
    refine ⟨(g.mergeSort fun i k =>
      decide (overlapAvg angle bs routeCoords i ≤ overlapAvg angle bs routeCoords k)).tail,
      ?_, hj⟩
    exact List.mem_map.mpr ⟨g, hg, by simp [hlen]⟩

theorem marked_subset_flatten (angle : Pt α → Pt α → α) (bs : List (Brunnel α))
    (routeCoords : List (RP α)) (j : ℕ) (hj : j ∈ overlapMarked angle bs routeCoords) :
    j ∈ (overlapGroups bs).flatten := by
  rcases (mem_overlapMarked_iff angle bs routeCoords j).mp hj with ⟨g, hg, _, hjt⟩
  have : j ∈ g := by
    have : j ∈ g.mergeSort fun i k =>
        decide (overlapAvg angle bs routeCoords i ≤ overlapAvg angle bs routeCoords k) :=
      List.mem_of_mem_tail hjt
    exact (List.mem_mergeSort).mp this
  exact List.mem_flatten.mpr ⟨g, hg, this⟩

theorem eq_of_mem_groups_of_nodup {β : Type*} :
    ∀ (groups : List (List β)), groups.flatten.Nodup →
      ∀ (g g' : List β), g ∈ groups → g' ∈ groups →
        ∀ (m : β), m ∈ g → m ∈ g' → g = g' := by
  intro groups
  induction groups with
  | nil =>
    intro _ g g' hg
    simp at hg
  | cons g0 rest ih =>
    intro hnd g g' hg hg' m hm hm'
    rw [List.flatten_cons] at hnd
    rcases List.nodup_append.mp hnd with ⟨hnd0, hndr, hdisj⟩
    rcases List.mem_cons.mp hg with h1 | h1 <;> rcases List.mem_cons.mp hg' with h2 | h2
    · rw [h1, h2]
    · exact absurd (List.mem_flatten.mpr ⟨g', h2, hm'⟩) (hdisj (h1 ▸ hm))
    · exact absurd (List.mem_flatten.mpr ⟨g, h1, hm⟩) (hdisj (h2 ▸ hm'))
    · exact ih hndr g g' h1 h2 m hm hm'

end C5Lemmas

section C5Thm

variable {α : Type*} [LinearOrderedField α]

/-- C5: in an overlap group of size over 1, the member with the strictly
minimum average perpendicular distance to the route keeps its null
exclusion reason through handleOverlaps, and every other member of the
group comes out marked with exclusion reason alternative. -/
theorem c5_overlap_min_average_survives (angle : Pt α → Pt α → α)
    (bs : List (Brunnel α)) (routeCoords : List (RP α)) (g : List ℕ)
    (hg : g ∈ overlapGroups bs) (hlen : 1 < g.length) (m : ℕ) (hm : m ∈ g)
    (hmin : ∀ j ∈ g, j ≠ m →
      calculateAverageDistanceToRoute angle (bs.getD m junkBrunnel) routeCoords <
        calculateAverageDistanceToRoute angle (bs.getD j junkBrunnel) routeCoords) :
    ((handleOverlaps angle bs routeCoords).getD m junkBrunnel).exclusionReason = none ∧
    ∀ j ∈ g, j ≠ m →
      ((handleOverlaps angle bs routeCoords).getD j junkBrunnel).exclusionReason =
        some ExclusionReason.alternative := by
  have hndflat : (overlapGroups bs).flatten.Nodup := overlapGroups_flatten_nodup bs
  have hndg : g.Nodup := by
    rcases (List.nodup_flatten).mp hndflat with ⟨hall, _⟩
    exact hall g hg
  have hminavg : ∀ j ∈ g, j ≠ m →
      overlapAvg angle bs routeCoords m < overlapAvg angle bs routeCoords j := hmin
  rcases mergeSort_head_strict_min (overlapAvg angle bs routeCoords) g hndg m hm hminavg
    with ⟨tl, hsort, hmtl, htl⟩
  have hmidx := mem_overlapIdx_spec bs m (mem_overlapIdx_of_mem_group bs g hg m hm)
  have hmnotmarked : m ∉ overlapMarked angle bs routeCoords := by
    intro hmem
    rcases (mem_overlapMarked_iff angle bs routeCoords m).mp hmem with ⟨g', hg', _, hjt⟩
    have hmg' : m ∈ g' := (List.mem_mergeSort).mp (List.mem_of_mem_tail hjt)
    have : g' = g := eq_of_mem_groups_of_nodup _ hndflat g' g hg' hg m hmg' hm
    rw [this, hsort] at hjt
    exact hmtl hjt
  constructor
  · unfold handleOverlaps
    rw [markAlternatives_getD (overlapMarked angle bs routeCoords) bs 0 m]
    rw [if_neg (by
      intro hcon
      exact hmnotmarked (by simpa using hcon.1))]
    exact hmidx.2.1
  · intro j hj hne
    have hjidx := mem_overlapIdx_spec bs j (mem_overlapIdx_of_mem_group bs g hg j hj)
    have hjmarked : j ∈ overlapMarked angle bs routeCoords := by
      refine (mem_overlapMarked_iff angle bs routeCoords j).mpr ⟨g, hg, hlen, ?_⟩
      rw [hsort]
      exact (htl j).mpr ⟨hj, hne⟩
    unfold handleOverlaps
    rw [markAlternatives_getD (overlapMarked angle bs routeCoords) bs 0 j]
    rw [if_pos ⟨by simpa using hjmarked, hjidx.1⟩]

end C5Thm

section C1Thm

variable {α : Type*} [LinearOrderedField α]

theorem foldl_min_of_le (x : α) :
    ∀ (l : List α), (∀ y ∈ l, x ≤ y) → l.foldl min x = x := by
  intro l
  induction l with
  | nil => intro _; rfl
  | cons y ys ih =>
    intro h
    rw [List.foldl_cons, min_eq_left (h y (by simp))]
    exact ih fun z hz => h z (by simp [hz])

theorem mergeSortKey_eq_spanStart (b : Brunnel α) : mergeSortKey b = spanStart b := by
  cases h : b.routeSpan with
  | none => simp [mergeSortKey, spanStart, h, junkSpan]
  | some sp => simp [mergeSortKey, spanStart, h]

theorem createMergedBrunnel_spanStart (b : Brunnel α) (rest : List (Brunnel α))
    (h : ∀ y ∈ rest, spanStart b ≤ spanStart y) :
    spanStart (createMergedBrunnel (b :: rest)) = spanStart b := by
  cases rest with
  | nil => rfl
  | cons c rest' =>
    have hfold : ((c :: rest').map spanStart).foldl min (spanStart b) = spanStart b := by
      refine foldl_min_of_le (spanStart b) _ ?_
      intro y hy
      rcases List.mem_map.mp hy with ⟨z, hz, hzy⟩
      exact hzy ▸ h z hz
    have hdef : spanStart (createMergedBrunnel (b :: c :: rest')) =
        ((c :: rest').map spanStart).foldl min (spanStart b) := rfl
    rw [hdef]
    exact hfold

theorem mergeByType_sorted (bs : List (Brunnel α)) :
    (mergeByType bs).Pairwise fun a b => spanStart a ≤ spanStart b := by
  unfold mergeByType
  cases hsort : bs.mergeSort fun a b => decide (mergeSortKey a ≤ mergeSortKey b) with
  | nil => simp
  | cons x xs =>
    have hsorted : (x :: xs).Pairwise fun a b => spanStart a ≤ spanStart b := by
      have h := @List.sorted_mergeSort (Brunnel α)
        (fun a b => decide (mergeSortKey a ≤ mergeSortKey b))
        (fun a b c hab hbc => by
          simp only [decide_eq_true_eq] at hab hbc ⊢
          exact le_trans hab hbc)
        (fun a b => by
          simp only [Bool.or_eq_true, decide_eq_true_eq]
          exact le_total (mergeSortKey a) (mergeSortKey b))
        bs
      rw [hsort] at h
      refine h.imp ?_
      intro a b hab
      simp only [decide_eq_true_eq, mergeSortKey_eq_spanStart] at hab
      exact hab
    have hflat : (mergeScanGroups x [] xs).flatten = x :: xs := by
      rw [mergeScanGroups_flatten]
      simp
    have hpj := List.pairwise_join.mp (by
      rw [show (mergeScanGroups x [] xs).flatten = x :: xs from hflat]
      exact hsorted)
    rcases hpj with ⟨hinner, hcross⟩
    rw [List.pairwise_map]
    refine hcross.imp_of_mem ?_
    intro g1 g2 hg1 hg2 hrel
    have hne1 : g1 ≠ [] := mergeScanGroups_ne_nil xs x [] g1 hg1
    have hne2 : g2 ≠ [] := mergeScanGroups_ne_nil xs x [] g2 hg2
    have hcm : ∀ g ∈ mergeScanGroups x [] xs, g ≠ [] →
        spanStart (createMergedBrunnel g) = spanStart (g.headD junkBrunnel) := by
      intro g hgmem hgne
      match g, hgne with
      | b :: rest, _ =>
        have hpg : (b :: rest).Pairwise fun a c => spanStart a ≤ spanStart c :=
          hinner _ hgmem
        exact createMergedBrunnel_spanStart b rest (List.pairwise_cons.mp hpg).1
    rw [hcm g1 hg1 hne1, hcm g2 hg2 hne2]
    have hh1 : (g1.headD junkBrunnel) ∈ g1 := by
      match g1, hne1 with
      | b :: rest, _ => simp
    have hh2 : (g2.headD junkBrunnel) ∈ g2 := by
      match g2, hne2 with
      | b :: rest, _ => simp
    exact hrel _ hh1 _ hh2

/-- C1 (amended): the span list returned by the pipeline is the accepted
bridges followed by the accepted tunnels, each part ordered by start
distance; ordering is not guaranteed across the bridge/tunnel boundary. -/
theorem c1_output_sorted_within_type (angle rb : Pt α → Pt α → α)
    (routeCoords : List (RP α)) (brunnels : List (Brunnel α))
    (routeBuffer bearingTolerance : α) :
    ∃ xs ys,
      locateBrunnelsCore angle rb routeCoords brunnels routeBuffer bearingTolerance =
        xs ++ ys ∧
      (∀ x ∈ xs, x.type = BrunnelType.bridge) ∧
      (∀ y ∈ ys, y.type = BrunnelType.tunnel) ∧
      xs.Pairwise (fun a b => a.startDistance ≤ b.startDistance) ∧
      ys.Pairwise (fun a b => a.startDistance ≤ b.startDistance) := by
  unfold locateBrunnelsCore mergeAdjacentBrunnels
  rw [List.map_append]
  refine ⟨_, _, rfl, ?_, ?_, ?_, ?_⟩
  · intro x hx
    rcases List.mem_map.mp hx with ⟨b', hb', hbx⟩
    rcases mergeByType_mem_source _ b' hb' with ⟨b, hb, htype, _⟩
    have : b.type = BrunnelType.bridge := by
      have := List.of_mem_filter hb
      simpa using this
    rw [← hbx]
    simpa [htype] using this
  · intro y hy
    rcases List.mem_map.mp hy with ⟨b', hb', hby⟩
    rcases mergeByType_mem_source _ b' hb' with ⟨b, hb, htype, _⟩
    have : b.type = BrunnelType.tunnel := by
      have := List.of_mem_filter hb
      simpa using this
    rw [← hby]
    simpa [htype] using this
  · rw [List.pairwise_map]
    exact mergeByType_sorted _
  · rw [List.pairwise_map]
    exact mergeByType_sorted _

end C1Thm

section C1Concrete

/-- Route of the C1 counterexample: 2 km along the equator. -/
def c1Route : List (RP ℚ) := [⟨0, 0, 0⟩, ⟨0, 2, 2000⟩]

/-- A bridge lying on the route between 1.0 and 1.1 km. -/
def c1Bridge : Brunnel ℚ := mkBrunnel 1 BrunnelType.bridge "B" [⟨0, 1⟩, ⟨0, 11/10⟩]

/-- A tunnel lying on the route between 0.2 and 0.3 km. -/
def c1Tunnel : Brunnel ℚ := mkBrunnel 2 BrunnelType.tunnel "T" [⟨0, 1/5⟩, ⟨0, 3/10⟩]

/-- C1 is false as stated: a route carrying one accepted bridge starting
at 1.0 km and one accepted tunnel starting at 0.2 km yields the output
start-distance sequence [1, 0.2], which is not ordered by start distance
across the bridge/tunnel boundary. -/
theorem c1_counterexample :
    (locateBrunnelsCore taxiAngle zeroBearing c1Route [c1Bridge, c1Tunnel] 3 20).map
        OutputBrunnel.startDistance = [1, 1/5] ∧
      ¬ ((locateBrunnelsCore taxiAngle zeroBearing c1Route [c1Bridge, c1Tunnel] 3 20).map
        OutputBrunnel.startDistance).Pairwise (· ≤ ·) := by
  constructor
  · with_unfolding_all decide
  · intro hpair
    have heq : (locateBrunnelsCore taxiAngle zeroBearing c1Route [c1Bridge, c1Tunnel] 3 20).map
        OutputBrunnel.startDistance = [1, 1/5] := by with_unfolding_all decide
    rw [heq] at hpair
    have := (List.pairwise_cons.mp hpair).1 (1/5) (by simp)
    norm_num at this

end C1Concrete

section C5Witness

/-- Overlap witness kept: single vertex 0.002 degrees off the route,
average distance 2 meters under the witness oracle; span [0, 1] km. -/
def w5a : Brunnel ℚ := ⟨1, BrunnelType.bridge, "A", [⟨1/500, 1⟩], some ⟨0, 1⟩, none⟩

/-- Overlap witness excluded: single vertex 0.005 degrees off the route,
average distance 5 meters; span [0.5, 1.5] km overlapping w5a. -/
def w5b : Brunnel ℚ := ⟨2, BrunnelType.bridge, "B", [⟨1/200, 1⟩], some ⟨1/2, 3/2⟩, none⟩

theorem c5_overlap_min_average_survives_witness :
    calculateAverageDistanceToRoute taxiAngle ([w5a, w5b].getD 0 junkBrunnel) w2Route = 2 ∧
    calculateAverageDistanceToRoute taxiAngle ([w5a, w5b].getD 1 junkBrunnel) w2Route = 5 ∧
    ((handleOverlaps taxiAngle [w5a, w5b] w2Route).getD 0 junkBrunnel).exclusionReason =
      none ∧
    ((handleOverlaps taxiAngle [w5a, w5b] w2Route).getD 1 junkBrunnel).exclusionReason =
      some ExclusionReason.alternative := by
  have h := c5_overlap_min_average_survives taxiAngle [w5a, w5b] w2Route [0, 1]
    (by with_unfolding_all decide) (by norm_num) 0 (by norm_num)
    (by with_unfolding_all decide)
  exact ⟨by with_unfolding_all decide, by with_unfolding_all decide, h.1,
    h.2 1 (by norm_num) (by norm_num)⟩

end C5Witness

section C3Amended

variable {α : Type*} [LinearOrderedField α]

/-- Default segment used for out-of-range segment indexing. -/
def junkSeg : Pt α × Pt α := (⟨0, 0⟩, ⟨0, 0⟩)

/-- The clamped planar projection of p onto segment i of the segment
list. -/
def sProj (p : Pt α) (segs : List (Pt α × Pt α)) (i : ℕ) : Pt α :=
  (pointOnSegment (segs.getD i junkSeg).1 (segs.getD i junkSeg).2 p).1

/-- The clamped projection parameter on segment i. -/
def sT (p : Pt α) (segs : List (Pt α × Pt α)) (i : ℕ) : α :=
  (pointOnSegment (segs.getD i junkSeg).1 (segs.getD i junkSeg).2 p).2

/-- The length of segment i under the distance function d. -/
def sLen (d : Pt α → Pt α → α) (segs : List (Pt α × Pt α)) (i : ℕ) : α :=
  d (segs.getD i junkSeg).1 (segs.getD i junkSeg).2

/-- The cumulative length of the segments before segment i. -/
def sCum (d : Pt α → Pt α → α) (segs : List (Pt α × Pt α)) (i : ℕ) : α :=
  ((segs.take i).map fun s => d s.1 s.2).sum

/-- A point lies on the polyline: it is the linear lon/lat interpolation
of some consecutive coordinate pair at a parameter in the unit
interval. -/
def onPolyline (coords : List (Pt α)) (X : Pt α) : Prop :=
  ∃ seg ∈ consPairs coords, ∃ s : α, 0 ≤ s ∧ s ≤ 1 ∧
    X = ⟨seg.1.lon + s * (seg.2.lon - seg.1.lon), seg.1.lat + s * (seg.2.lat - seg.1.lat)⟩

theorem sProj_zero (p : Pt α) (a b : Pt α) (rest : List (Pt α × Pt α)) :
    sProj p ((a, b) :: rest) 0 = (pointOnSegment a b p).1 := rfl

theorem sProj_succ (p : Pt α) (s0 : Pt α × Pt α) (rest : List (Pt α × Pt α)) (k : ℕ) :
    sProj p (s0 :: rest) (k + 1) = sProj p rest k := rfl

theorem sT_succ (p : Pt α) (s0 : Pt α × Pt α) (rest : List (Pt α × Pt α)) (k : ℕ) :
    sT p (s0 :: rest) (k + 1) = sT p rest k := rfl

theorem sLen_succ (d : Pt α → Pt α → α) (s0 : Pt α × Pt α) (rest : List (Pt α × Pt α))
    (k : ℕ) : sLen d (s0 :: rest) (k + 1) = sLen d rest k := rfl

theorem sCum_zero (d : Pt α → Pt α → α) (segs : List (Pt α × Pt α)) :
    sCum d segs 0 = 0 := rfl

theorem sCum_succ (d : Pt α → Pt α → α) (s0 : Pt α × Pt α) (rest : List (Pt α × Pt α))
    (k : ℕ) : sCum d (s0 :: rest) (k + 1) = d s0.1 s0.2 + sCum d rest k := by
  simp [sCum]

theorem nearestGo_some_spec (d : Pt α → Pt α → α) (p : Pt α) :
    ∀ (segs : List (Pt α × Pt α)) (cur : NearestRes α) (total : α),
      ∃ r, nearestGo d p segs (some cur) total = some r ∧
        ((r = cur ∧ ∀ j, j < segs.length → cur.dist ≤ d (sProj p segs j) p) ∨
          (∃ i, i < segs.length ∧
            r = ⟨sProj p segs i, d (sProj p segs i) p,
              total + sCum d segs i + sT p segs i * sLen d segs i⟩ ∧
            d (sProj p segs i) p < cur.dist ∧
            (∀ j, j < segs.length → d (sProj p segs i) p ≤ d (sProj p segs j) p) ∧
            (∀ j, j < i → d (sProj p segs i) p < d (sProj p segs j) p))) := by
  intro segs
  induction segs with
  | nil =>
    intro cur total
    exact ⟨cur, rfl, Or.inl ⟨rfl, fun j hj => by simp at hj⟩⟩
  | cons s0 rest ih =>
    intro cur total
    obtain ⟨a, b⟩ := s0
    have hstep : nearestGo d p ((a, b) :: rest) (some cur) total =
        nearestGo d p rest
          (if d (pointOnSegment a b p).1 p < cur.dist then
            some ⟨(pointOnSegment a b p).1, d (pointOnSegment a b p).1 p,
              total + (pointOnSegment a b p).2 * d a b⟩
          else some cur) (total + d a b) := rfl
    by_cases hdd : d (pointOnSegment a b p).1 p < cur.dist
    · rw [hstep, if_pos hdd]
      rcases ih ⟨(pointOnSegment a b p).1, d (pointOnSegment a b p).1 p,
        total + (pointOnSegment a b p).2 * d a b⟩ (total + d a b) with ⟨r, hr, hcase⟩
      refine ⟨r, hr, Or.inr ?_⟩
      rcases hcase with ⟨hrcur, hmin⟩ | ⟨i', hi', hr', hlt', hmin', hstrict'⟩
      · refine ⟨0, by simp, ?_, hdd, ?_, fun j hj => by omega⟩
        · rw [hrcur]
          show (⟨(pointOnSegment a b p).1, d (pointOnSegment a b p).1 p,
              total + (pointOnSegment a b p).2 * d a b⟩ : NearestRes α) =
            ⟨(pointOnSegment a b p).1, d (pointOnSegment a b p).1 p,
              total + 0 + (pointOnSegment a b p).2 * d a b⟩
          congr 1
          ring
        · intro j hj
          cases j with
          | zero => exact le_refl _
          | succ k =>
            have := hmin k (by simpa using hj)
            simpa [sProj_succ] using this
      · refine ⟨i' + 1, by simpa using hi', ?_, lt_trans hlt' hdd, ?_, ?_⟩
        · rw [hr']
          have hcum : sCum d ((a, b) :: rest) (i' + 1) = d a b + sCum d rest i' :=
            sCum_succ d (a, b) rest i'
          simp only [sProj_succ, sT_succ, sLen_succ, hcum]
          congr 1
          ring
        · intro j hj
          cases j with
          | zero =>
            simp only [sProj_succ, sProj_zero]
            exact le_of_lt hlt'
          | succ k =>
            have := hmin' k (by simpa using hj)
            simpa [sProj_succ] using this
        · intro j hj
          cases j with
          | zero =>
            simp only [sProj_succ, sProj_zero]
            exact hlt'
          | succ k =>
            have := hstrict' k (by omega)
            simpa [sProj_succ] using this
    · rw [hstep, if_neg hdd]
      rcases ih cur (total + d a b) with ⟨r, hr, hcase⟩
      refine ⟨r, hr, ?_⟩
      rcases hcase with ⟨hrcur, hmin⟩ | ⟨i', hi', hr', hlt', hmin', hstrict'⟩
      · refine Or.inl ⟨hrcur, ?_⟩
        intro j hj
        cases j with
        | zero => exact le_of_not_lt hdd
        | succ k =>
          have := hmin k (by simpa using hj)
          simpa [sProj_succ] using this
      · refine Or.inr ⟨i' + 1, by simpa using hi', ?_, hlt', ?_, ?_⟩
        · rw [hr']
          have hcum : sCum d ((a, b) :: rest) (i' + 1) = d a b + sCum d rest i' :=
            sCum_succ d (a, b) rest i'
          simp only [sProj_succ, sT_succ, sLen_succ, hcum]
          congr 1
          ring
        · intro j hj
          cases j with
          | zero =>
            simp only [sProj_succ, sProj_zero]
            exact le_of_lt (lt_of_lt_of_le hlt' (le_of_not_lt hdd))
          | succ k =>
            have := hmin' k (by simpa using hj)
            simpa [sProj_succ] using this
        · intro j hj
          cases j with
          | zero =>
            simp only [sProj_succ, sProj_zero]
            exact lt_of_lt_of_le hlt' (le_of_not_lt hdd)
          | succ k =>
            have := hstrict' k (by omega)
            simpa [sProj_succ] using this

theorem pointOnSegment_onSeg (a b p : Pt α) :
    ∃ t : α, 0 ≤ t ∧ t ≤ 1 ∧
      (pointOnSegment a b p).1 =
        ⟨a.lon + t * (b.lon - a.lon), a.lat + t * (b.lat - a.lat)⟩ := by
  unfold pointOnSegment
  by_cases h : (b.lon - a.lon) * (b.lon - a.lon) + (b.lat - a.lat) * (b.lat - a.lat) = 0
  · refine ⟨0, le_refl 0, by norm_num, ?_⟩
    rw [if_pos h]
    cases a
    simp
  · rw [if_neg h]
    refine ⟨_, le_max_left _ _, ?_, rfl⟩
    exact max_le (by norm_num) (min_le_left _ _)

theorem onPolyline_sProj (coords : List (Pt α)) (p : Pt α) (i : ℕ)
    (hi : i < (consPairs coords).length) :
    onPolyline coords (sProj p (consPairs coords) i) := by
  rcases pointOnSegment_onSeg ((consPairs coords).getD i junkSeg).1
    ((consPairs coords).getD i junkSeg).2 p with ⟨t, ht0, ht1, heq⟩
  refine ⟨(consPairs coords).getD i junkSeg, ?_, t, ht0, ht1, heq⟩
  rw [List.getD_eq_getElem _ _ hi]
  exact List.getElem_mem _

/-- C3 (amended): nearestPointOnLine returns, for a polyline with at least
2 coordinates, the clamped planar (raw lon/lat) projection of the query
point onto one of the segments, chosen so that no other segment's clamped
planar projection is strictly closer under the distance function d, with
the lowest-index segment winning exact ties; the location property is the
cumulative segment length before the chosen segment plus the clamped
parameter times that segment's length, and the dist property is the
distance from the chosen projection to the query point.  The returned
point lies on the polyline.  (The source's comparison minimises only over
these per-segment planar projections, not over all points of the line,
which is why the original global-optimality claim fails.) -/
theorem c3_nearest_projection_argmin (d : Pt α → Pt α → α) (coords : List (Pt α))
    (p : Pt α) (h2 : 2 ≤ coords.length) :
    ∃ nr, nearestPointOnLine d coords p = some nr ∧
      ∃ i, i < (consPairs coords).length ∧
        nr.point = sProj p (consPairs coords) i ∧
        nr.dist = d (sProj p (consPairs coords) i) p ∧
        (∀ j, j < (consPairs coords).length →
          nr.dist ≤ d (sProj p (consPairs coords) j) p) ∧
        (∀ j, j < i → nr.dist < d (sProj p (consPairs coords) j) p) ∧
        nr.location = sCum d (consPairs coords) i +
          sT p (consPairs coords) i * sLen d (consPairs coords) i ∧
        onPolyline coords nr.point := by
  match coords, h2 with
  | c0 :: c1 :: rest, _ =>
    have hstep : nearestPointOnLine d (c0 :: c1 :: rest) p =
        nearestGo d p (consPairs (c1 :: rest))
          (some ⟨(pointOnSegment c0 c1 p).1, d (pointOnSegment c0 c1 p).1 p,
            0 + (pointOnSegment c0 c1 p).2 * d c0 c1⟩) (0 + d c0 c1) := rfl
    rcases nearestGo_some_spec d p (consPairs (c1 :: rest))
      ⟨(pointOnSegment c0 c1 p).1, d (pointOnSegment c0 c1 p).1 p,
        0 + (pointOnSegment c0 c1 p).2 * d c0 c1⟩ (0 + d c0 c1) with ⟨r, hr, hcase⟩
    have hsegs : consPairs (c0 :: c1 :: rest) = (c0, c1) :: consPairs (c1 :: rest) := rfl
    refine ⟨r, by rw [hstep]; exact hr, ?_⟩
    rcases hcase with ⟨hrcur, hmin⟩ | ⟨i', hi', hr', hlt', hmin', hstrict'⟩
    · refine ⟨0, by simp [hsegs], ?_, ?_, ?_, fun j hj => by omega, ?_, ?_⟩
      · rw [hrcur]; rfl
      · rw [hrcur]; rfl
      · intro j hj
        rw [hrcur]
        cases j with
        | zero => exact le_refl _
        | succ k =>
          have hk : k < (consPairs (c1 :: rest)).length := by
            rw [hsegs] at hj
            simpa using hj
          exact hmin k hk
      · rw [hrcur]
        show 0 + (pointOnSegment c0 c1 p).2 * d c0 c1 =
          sCum d (consPairs (c0 :: c1 :: rest)) 0 +
            sT p (consPairs (c0 :: c1 :: rest)) 0 * sLen d (consPairs (c0 :: c1 :: rest)) 0
        rw [sCum_zero]
        rfl
      · rw [hrcur]
        exact onPolyline_sProj (c0 :: c1 :: rest) p 0 (by simp [hsegs])
    · refine ⟨i' + 1, by rw [hsegs]; simpa using hi', ?_, ?_, ?_, ?_, ?_, ?_⟩
      · rw [hr']; rfl
      · rw [hr']; rfl
      · intro j hj
        rw [hr']
        cases j with
        | zero => exact le_of_lt hlt'
        | succ k =>
          have hk : k < (consPairs (c1 :: rest)).length := by
            rw [hsegs] at hj
            simpa using hj
          exact hmin' k hk
      · intro j hj
        rw [hr']
        cases j with
        | zero => exact hlt'
        | succ k => exact hstrict' k (by omega)
      · rw [hr']
        show 0 + d c0 c1 + sCum d (consPairs (c1 :: rest)) i' +
            sT p (consPairs (c1 :: rest)) i' * sLen d (consPairs (c1 :: rest)) i' =
          sCum d (consPairs (c0 :: c1 :: rest)) (i' + 1) +
            sT p (consPairs (c0 :: c1 :: rest)) (i' + 1) *
              sLen d (consPairs (c0 :: c1 :: rest)) (i' + 1)
        rw [hsegs, sCum_succ]
        show 0 + d c0 c1 + sCum d (consPairs (c1 :: rest)) i' +
            sT p (consPairs (c1 :: rest)) i' * sLen d (consPairs (c1 :: rest)) i' =
          d c0 c1 + sCum d (consPairs (c1 :: rest)) i' +
            sT p (consPairs (c1 :: rest)) i' * sLen d (consPairs (c1 :: rest)) i'
        ring
      · rw [hr']
        exact onPolyline_sProj (c0 :: c1 :: rest) p (i' + 1) (by rw [hsegs]; simpa using hi')

theorem c3_nearest_projection_argmin_witness :
    ∃ nr, nearestPointOnLine (distKm taxiAngle) [⟨0, 0⟩, ⟨2, 0⟩] (⟨1, 1⟩ : Pt ℚ) = some nr ∧
      ∃ i, i < (consPairs [(⟨0, 0⟩ : Pt ℚ), ⟨2, 0⟩]).length ∧
        nr.point = sProj (⟨1, 1⟩ : Pt ℚ) (consPairs [⟨0, 0⟩, ⟨2, 0⟩]) i ∧
        nr.dist = distKm taxiAngle (sProj (⟨1, 1⟩ : Pt ℚ) (consPairs [⟨0, 0⟩, ⟨2, 0⟩]) i)
          ⟨1, 1⟩ ∧
        (∀ j, j < (consPairs [(⟨0, 0⟩ : Pt ℚ), ⟨2, 0⟩]).length →
          nr.dist ≤ distKm taxiAngle (sProj (⟨1, 1⟩ : Pt ℚ)
            (consPairs [⟨0, 0⟩, ⟨2, 0⟩]) j) ⟨1, 1⟩) ∧
        (∀ j, j < i → nr.dist < distKm taxiAngle (sProj (⟨1, 1⟩ : Pt ℚ)
          (consPairs [⟨0, 0⟩, ⟨2, 0⟩]) j) ⟨1, 1⟩) ∧
        nr.location = sCum (distKm taxiAngle) (consPairs [⟨0, 0⟩, ⟨2, 0⟩]) i +
          sT (⟨1, 1⟩ : Pt ℚ) (consPairs [⟨0, 0⟩, ⟨2, 0⟩]) i *
            sLen (distKm taxiAngle) (consPairs [⟨0, 0⟩, ⟨2, 0⟩]) i ∧
        onPolyline [⟨0, 0⟩, ⟨2, 0⟩] nr.point :=
  c3_nearest_projection_argmin (distKm taxiAngle) [⟨0, 0⟩, ⟨2, 0⟩] ⟨1, 1⟩ (by decide)

end C3Amended

section C3CE
open Real

/-- First vertex of the counterexample polyline: (0 E, 60 N). -/
noncomputable def ceA : Pt ℝ := ⟨0, 60⟩
/-- Second vertex of the counterexample polyline: (2 E, 62 N). -/
noncomputable def ceB : Pt ℝ := ⟨2, 62⟩
/-- The counterexample polyline: one segment at high latitude. -/
noncomputable def ceL : List (Pt ℝ) := [ceA, ceB]
/-- The query point: (2 E, 60 N), due east of ceA. -/
noncomputable def ceP : Pt ℝ := ⟨2, 60⟩
/-- A point on the segment at parameter 3/10, strictly closer to the
query point in great-circle distance than the returned planar
projection. -/
noncomputable def ceX2 : Pt ℝ := ⟨3/5, 303/5⟩

theorem ce_sqrt3_lb : (1.732 : ℝ) ≤ Real.sqrt 3 := by
  nlinarith [Real.sq_sqrt (show (0:ℝ) ≤ 3 by norm_num), Real.sqrt_nonneg 3]

theorem ce_sqrt3_ub : Real.sqrt 3 ≤ 1.7321 := by
  nlinarith [Real.sq_sqrt (show (0:ℝ) ≤ 3 by norm_num), Real.sqrt_nonneg 3]

theorem ce_s360_lb : (0.0087264 : ℝ) ≤ Real.sin (π/360) := by
  have h1 : (0:ℝ) < π/360 := by positivity
  have h2 : π/360 ≤ 1 := by nlinarith [Real.pi_lt_3141593]
  have h3 := Real.sin_gt_sub_cube h1 h2
  have h4 : (3.141592:ℝ)/360 ≤ π/360 := by nlinarith [Real.pi_gt_3141592]
  have h5 : π/360 ≤ (3.141593:ℝ)/360 := by nlinarith [Real.pi_lt_3141593]
  have h6 : (π/360)^3 ≤ ((3.141593:ℝ)/360)^3 := pow_le_pow_left (le_of_lt h1) h5 3
  nlinarith [h3, h4, h6]

theorem ce_s600_ub : Real.sin (π/600) ≤ 0.005236 := by
  have h1 : (0:ℝ) < π/600 := by positivity
  have := Real.sin_lt h1
  nlinarith [Real.pi_lt_3141593]

theorem ce_s71800_ub : Real.sin (7*π/1800) ≤ 0.0122174 := by
  have h1 : (0:ℝ) < 7*π/1800 := by positivity
  have := Real.sin_lt h1
  nlinarith [Real.pi_lt_3141593]

theorem ce_s180_ub : Real.sin (π/180) ≤ 0.0174533 := by
  have h1 : (0:ℝ) < π/180 := by positivity
  have := Real.sin_lt h1
  nlinarith [Real.pi_lt_3141593]

theorem ce_s180_nonneg : (0:ℝ) ≤ Real.sin (π/180) := by
  apply Real.sin_nonneg_of_nonneg_of_le_pi
  · positivity
  · nlinarith [Real.pi_gt_3141592]

theorem ce_pisq_ub : Real.pi^2 ≤ (3.141593:ℝ)^2 := by
  nlinarith [Real.pi_lt_3141593, Real.pi_gt_3141592]

theorem ce_c180_lb : (0.99984 : ℝ) ≤ Real.cos (π/180) := by
  have h := @Real.one_sub_sq_div_two_le_cos (π/180)
  nlinarith [ce_pisq_ub, h]

theorem ce_s300_lb : (0.0104716 : ℝ) ≤ Real.sin (π/300) := by
  have h1 : (0:ℝ) < π/300 := by positivity
  have h2 : π/300 ≤ 1 := by nlinarith [Real.pi_lt_3141593]
  have h3 := Real.sin_gt_sub_cube h1 h2
  have h4 : (3.141592:ℝ)/300 ≤ π/300 := by nlinarith [Real.pi_gt_3141592]
  have h5 : π/300 ≤ (3.141593:ℝ)/300 := by nlinarith [Real.pi_lt_3141593]
  have h6 : (π/300)^3 ≤ ((3.141593:ℝ)/300)^3 := pow_le_pow_left (le_of_lt h1) h5 3
  nlinarith [h3, h4, h6]

theorem ce_s300_ub : Real.sin (π/300) ≤ 0.010472 := by
  have h1 : (0:ℝ) < π/300 := by positivity
  have := Real.sin_lt h1
  nlinarith [Real.pi_lt_3141593]

theorem ce_s300_nonneg : (0:ℝ) ≤ Real.sin (π/300) := by
  apply Real.sin_nonneg_of_nonneg_of_le_pi
  · positivity
  · nlinarith [Real.pi_gt_3141592]

theorem ce_c300_lb : (0.99994 : ℝ) ≤ Real.cos (π/300) := by
  have h := @Real.one_sub_sq_div_two_le_cos (π/300)
  nlinarith [ce_pisq_ub, h]

theorem ce_c61_lb : (0.48473 : ℝ) ≤ Real.cos (π/3 + π/180) := by
  rw [Real.cos_add, Real.cos_pi_div_three, Real.sin_pi_div_three]
  have hprod : Real.sqrt 3 * Real.sin (π/180) ≤ 1.7321 * 0.0174533 :=
    mul_le_mul ce_sqrt3_ub ce_s180_ub ce_s180_nonneg (by norm_num)
  nlinarith [ce_c180_lb, hprod]

theorem ce_c606_ub : Real.cos (π/3 + π/300) ≤ 0.49094 := by
  rw [Real.cos_add, Real.cos_pi_div_three, Real.sin_pi_div_three]
  have hprod : (1.732 : ℝ) * 0.0104716 ≤ Real.sqrt 3 * Real.sin (π/300) :=
    mul_le_mul ce_sqrt3_lb ce_s300_lb (by norm_num) (Real.sqrt_nonneg 3)
  nlinarith [Real.cos_le_one (π/300), hprod]

theorem ce_c606_lb : (0:ℝ) ≤ Real.cos (π/3 + π/300) := by
  rw [Real.cos_add, Real.cos_pi_div_three, Real.sin_pi_div_three]
  have hprod : Real.sqrt 3 * Real.sin (π/300) ≤ 1.7321 * 0.010472 :=
    mul_le_mul ce_sqrt3_ub ce_s300_ub ce_s300_nonneg (by norm_num)
  nlinarith [ce_c300_lb, hprod]

end C3CE

section C3CE2
open Real

theorem ce_a1_eq : haversineA ceP ⟨1, 61⟩ =
    Real.sin (π/360)^2 * (1 + 1/2 * Real.cos (π/3 + π/180)) := by
  simp only [haversineA, degToRad, ceP]
  rw [show ((61:ℝ) - 60) * π / 180 / 2 = π/360 by ring]
  rw [show ((1:ℝ) - 2) * π / 180 / 2 = -(π/360) by ring]
  rw [show (60:ℝ) * π / 180 = π/3 by ring]
  rw [show (61:ℝ) * π / 180 = π/3 + π/180 by ring]
  rw [Real.sin_neg, Real.cos_pi_div_three]
  ring

theorem ce_a2_eq : haversineA ceP ceX2 =
    Real.sin (π/600)^2 + Real.sin (7*π/1800)^2 * (1/2) * Real.cos (π/3 + π/300) := by
  simp only [haversineA, degToRad, ceP, ceX2]
  rw [show ((303:ℝ)/5 - 60) * π / 180 / 2 = π/600 by ring]
  rw [show ((3:ℝ)/5 - 2) * π / 180 / 2 = -(7*π/1800) by ring]
  rw [show (60:ℝ) * π / 180 = π/3 by ring]
  rw [show ((303:ℝ)/5) * π / 180 = π/3 + π/300 by ring]
  rw [Real.sin_neg, Real.cos_pi_div_three]
  ring

theorem ce_s360_nonneg : (0:ℝ) ≤ Real.sin (π/360) := by
  apply Real.sin_nonneg_of_nonneg_of_le_pi
  · positivity
  · nlinarith [Real.pi_gt_3141592]

theorem ce_s600_nonneg : (0:ℝ) ≤ Real.sin (π/600) := by
  apply Real.sin_nonneg_of_nonneg_of_le_pi
  · positivity
  · nlinarith [Real.pi_gt_3141592]

theorem ce_s71800_nonneg : (0:ℝ) ≤ Real.sin (7*π/1800) := by
  apply Real.sin_nonneg_of_nonneg_of_le_pi
  · positivity
  · nlinarith [Real.pi_gt_3141592]

theorem ce_a1_lb : (0.000094 : ℝ) ≤ haversineA ceP ⟨1, 61⟩ := by
  rw [ce_a1_eq]
  have hs2 : (0.0087264:ℝ)^2 ≤ Real.sin (π/360)^2 :=
    pow_le_pow_left (by norm_num) ce_s360_lb 2
  nlinarith [hs2, ce_c61_lb, sq_nonneg (Real.sin (π/360))]

theorem ce_a2_ub : haversineA ceP ceX2 ≤ (0.000065 : ℝ) := by
  rw [ce_a2_eq]
  have hs1 : Real.sin (π/600)^2 ≤ (0.005236:ℝ)^2 :=
    pow_le_pow_left ce_s600_nonneg ce_s600_ub 2
  have hs2 : Real.sin (7*π/1800)^2 ≤ (0.0122174:ℝ)^2 :=
    pow_le_pow_left ce_s71800_nonneg ce_s71800_ub 2
  nlinarith [hs1, hs2, ce_c606_ub, ce_c606_lb, sq_nonneg (Real.sin (7*π/1800))]

theorem ce_a1_ub : haversineA ceP ⟨1, 61⟩ < 1 := by
  rw [ce_a1_eq]
  have hs : Real.sin (π/360) ≤ 0.0087267 := by
    have h1 : (0:ℝ) < π/360 := by positivity
    have := Real.sin_lt h1
    nlinarith [Real.pi_lt_3141593]
  have hs2 : Real.sin (π/360)^2 ≤ (0.0087267:ℝ)^2 :=
    pow_le_pow_left ce_s360_nonneg hs 2
  nlinarith [hs2, Real.cos_le_one (π/3 + π/180), Real.neg_one_le_cos (π/3 + π/180)]

theorem ce_a2_nonneg : (0:ℝ) ≤ haversineA ceP ceX2 := by
  rw [ce_a2_eq]
  nlinarith [sq_nonneg (Real.sin (π/600)), sq_nonneg (Real.sin (7*π/1800)), ce_c606_lb]

end C3CE2

section C3CE3
open Real

theorem haversineAngle_lt_of_a_lt (p q r s : Pt ℝ) (h0 : 0 ≤ haversineA p q)
    (hab : haversineA p q < haversineA r s) (h1 : haversineA r s < 1) :
    haversineAngle p q < haversineAngle r s := by
  unfold haversineAngle atan2
  have ha1 : (0:ℝ) < 1 - haversineA p q := by linarith
  have hb1 : (0:ℝ) < 1 - haversineA r s := by linarith
  have hx1 : 0 < Real.sqrt (1 - haversineA p q) := Real.sqrt_pos.mpr ha1
  have hx2 : 0 < Real.sqrt (1 - haversineA r s) := Real.sqrt_pos.mpr hb1
  rw [if_pos hx1, if_pos hx2]
  have hsa : Real.sqrt (haversineA p q) < Real.sqrt (haversineA r s) :=
    Real.sqrt_lt_sqrt h0 hab
  have hsb : Real.sqrt (1 - haversineA r s) ≤ Real.sqrt (1 - haversineA p q) :=
    Real.sqrt_le_sqrt (by linarith)
  have hdiv : Real.sqrt (haversineA p q) / Real.sqrt (1 - haversineA p q) <
      Real.sqrt (haversineA r s) / Real.sqrt (1 - haversineA r s) := by
    calc Real.sqrt (haversineA p q) / Real.sqrt (1 - haversineA p q)
        ≤ Real.sqrt (haversineA p q) / Real.sqrt (1 - haversineA r s) := by
          gcongr
      _ < Real.sqrt (haversineA r s) / Real.sqrt (1 - haversineA r s) := by
          gcongr
  have harctan := Real.arctan_strictMono hdiv
  linarith

theorem ce_point_on_segment :
    pointOnSegment ceA ceB ceP = (⟨1, 61⟩, 1/2) := by
  unfold pointOnSegment ceA ceB ceP
  norm_num

theorem ce_nearest :
    nearestPointOnLine (distKm haversineAngle) ceL ceP =
      some ⟨⟨1, 61⟩, distKm haversineAngle (⟨1, 61⟩ : Pt ℝ) ceP,
        0 + (1/2) * distKm haversineAngle ceA ceB⟩ := by
  have h : nearestPointOnLine (distKm haversineAngle) ceL ceP =
      some ⟨(pointOnSegment ceA ceB ceP).1,
        distKm haversineAngle (pointOnSegment ceA ceB ceP).1 ceP,
        0 + (pointOnSegment ceA ceB ceP).2 * distKm haversineAngle ceA ceB⟩ := rfl
  rw [h, ce_point_on_segment]

theorem ce_key_inequality :
    distKm haversineAngle ceP ceX2 < distKm haversineAngle ceP (⟨1, 61⟩ : Pt ℝ) := by
  unfold distKm
  have hangle : haversineAngle ceP ceX2 < haversineAngle ceP ⟨1, 61⟩ := by
    apply haversineAngle_lt_of_a_lt
    · exact ce_a2_nonneg
    · calc haversineA ceP ceX2 ≤ 0.000065 := ce_a2_ub
        _ < 0.000094 := by norm_num
        _ ≤ haversineA ceP ⟨1, 61⟩ := ce_a1_lb
    · exact ce_a1_ub
  have hpos : (0:ℝ) < 63710088 / 10000 := by norm_num
  exact mul_lt_mul_of_pos_right hangle hpos

theorem ce_onPolyline : onPolyline ceL ceX2 := by
  refine ⟨(ceA, ceB), ?_, 3/10, by norm_num, by norm_num, ?_⟩
  · simp [ceL, consPairs]
  · unfold ceA ceB ceX2
    norm_num

/-- C3 is false as stated: on the single-segment polyline from (0 E,60 N)
to (2 E,62 N) with query point (2 E,60 N), nearestPointOnLine returns the
planar lon/lat projection (1 E,61 N), yet the point of the polyline at
parameter 3/10, (0.6 E,60.6 N), is strictly closer to the query point in
the great-circle (haversine) distance the source uses: latitude-degree
compression of longitude is ignored by the planar projection. -/
theorem c3_counterexample :
    onPolyline ceL ceX2 ∧
    ∃ nr, nearestPointOnLine (distKm haversineAngle) ceL ceP = some nr ∧
      nr.point = ⟨1, 61⟩ ∧
      distKm haversineAngle ceP ceX2 < distKm haversineAngle ceP nr.point := by
  refine ⟨ce_onPolyline, ⟨⟨1, 61⟩, distKm haversineAngle (⟨1, 61⟩ : Pt ℝ) ceP,
    0 + (1/2) * distKm haversineAngle ceA ceB⟩, ce_nearest, rfl, ce_key_inequality⟩

end C3CE3
